import Mathlib

/-!
# Verification of the Bio-Voice Commander DSP core

A shallow embedding, in Lean 4, of the parts of the repository that the
specification's testable properties talk about:

* `src/config.py` — the numeric configuration constants;
* `src/vad.py` — the energy-based voice-activity-detection state machine
  (`VAD.process_chunk`) and the audio preprocessing (`preprocess_audio`);
* `src/audio/features.py` / `src/features.py` — `lpc_to_lpcc` (LPCC clipping)
  and `mel_distance`;
* `src/recognizers/dtw.py` and `src/audio/recognizers.py` — the DTW distance
  wrappers and the template-matching decision logic
  (`TemplateMatcher.recognize`, `FastLPCMatcher.recognize`);
* `src/ecg/adapter.py` — the streaming R-peak detector, its refractory and
  RR/BPM bookkeeping, and the fallback peak generator.

Floating-point numbers are idealised as exact reals (`ℝ`) where square roots
appear, and as exact rationals (`ℚ`) in the purely arithmetic ECG/LPCC code,
so that the latter stays computable and concrete runs can be decided by the
kernel.  Python's `float('inf')` is modelled by `⊤` in `WithTop`.
-/

namespace BioVoice

/-! ## Configuration (`src/config.py`) -/

/-- `SAMPLE_RATE = 16000`. -/
def SAMPLE_RATE : ℕ := 16000

/-- `CHUNK_SIZE = 256`. -/
def CHUNK_SIZE : ℕ := 256

/-- `VAD_ENERGY_THRESHOLD_MULT_LOW = 1.6`. -/
def VAD_ENERGY_THRESHOLD_MULT_LOW : ℝ := 1.6

/-- `VAD_ENERGY_THRESHOLD_MULT_HIGH = 3.5`. -/
def VAD_ENERGY_THRESHOLD_MULT_HIGH : ℝ := 3.5

/-- `VAD_MIN_SPEECH_MS = 120`. -/
def VAD_MIN_SPEECH_MS : ℕ := 120

/-- `VAD_MAX_SPEECH_MS = 1500`. -/
def VAD_MAX_SPEECH_MS : ℕ := 1500

/-- `VAD_SILENCE_MS = 80`. -/
def VAD_SILENCE_MS : ℕ := 80

/-! ## Voice-activity detection (`src/vad.py`)

Audio chunks are modelled as lists of reals (the code casts the int16
samples to float32 before all arithmetic). -/

/-- The three VAD states (`VADState` in `src/vad.py`). -/
inductive VADPhase : Type
  | SILENCE
  | RECORDING
  | PROCESSING
deriving DecidableEq, Repr

/-- The mutable fields of the `VAD` class. -/
structure VadSt : Type where
  phase : VADPhase
  backgroundRms : ℝ
  speechBuffer : List (List ℝ)
  silenceFrames : ℕ
  speechFrames : ℕ

/-- `VAD.__init__(background_rms)`: start in SILENCE with empty buffers. -/
def vadInit (backgroundRms : ℝ) : VadSt :=
  { phase := .SILENCE
    backgroundRms := backgroundRms
    speechBuffer := []
    silenceFrames := 0
    speechFrames := 0 }

/-- `self._min_speech_frames = int(VAD_MIN_SPEECH_MS * SAMPLE_RATE / 1000 / CHUNK_SIZE)`.
All intermediate float divisions are exact until the final truncation, so
natural-number division reproduces the Python value (7). -/
def minSpeechFrames : ℕ := VAD_MIN_SPEECH_MS * SAMPLE_RATE / 1000 / CHUNK_SIZE

/-- `self._max_speech_frames = int(VAD_MAX_SPEECH_MS * SAMPLE_RATE / 1000 / CHUNK_SIZE)` (93). -/
def maxSpeechFrames : ℕ := VAD_MAX_SPEECH_MS * SAMPLE_RATE / 1000 / CHUNK_SIZE

/-- `self._silence_frames_threshold = int(VAD_SILENCE_MS * SAMPLE_RATE / 1000 / CHUNK_SIZE)` (5). -/
def silenceFramesThreshold : ℕ := VAD_SILENCE_MS * SAMPLE_RATE / 1000 / CHUNK_SIZE

/-- `VAD._compute_energy`: RMS energy of the chunk, `0.0` for an empty chunk. -/
noncomputable def computeEnergy (samples : List ℝ) : ℝ :=
  if samples.length = 0 then 0
  else Real.sqrt ((samples.map (fun s => s ^ 2)).sum / samples.length)

/-- `VAD._get_threshold`: midpoint of the low and high dynamic thresholds. -/
noncomputable def getThreshold (backgroundRms : ℝ) : ℝ :=
  (backgroundRms * VAD_ENERGY_THRESHOLD_MULT_LOW
    + backgroundRms * VAD_ENERGY_THRESHOLD_MULT_HIGH) / 2

/-- `VAD.process_chunk`: one step of the three-state machine.  Returns the
new state together with the completed speech segment, if any. -/
noncomputable def processChunk (st : VadSt) (chunk : List ℝ) :
    VadSt × Option (List ℝ) :=
  let energy := computeEnergy chunk
  let threshold := getThreshold st.backgroundRms
  let is_speech := threshold < energy
  match st.phase with
  | .SILENCE =>
      if is_speech then
        ({ st with phase := .RECORDING, speechBuffer := [chunk],
                   speechFrames := 1, silenceFrames := 0 }, none)
      else (st, none)
  | .RECORDING =>
      let st := { st with speechBuffer := st.speechBuffer ++ [chunk],
                          speechFrames := st.speechFrames + 1 }
      let st := if is_speech then { st with silenceFrames := 0 }
                else { st with silenceFrames := st.silenceFrames + 1 }
      if silenceFramesThreshold ≤ st.silenceFrames
          ∨ maxSpeechFrames ≤ st.speechFrames then
        if minSpeechFrames ≤ st.speechFrames then
          ({ st with phase := .PROCESSING, speechBuffer := [] },
            some st.speechBuffer.flatten)
        else
          ({ st with phase := .SILENCE, speechBuffer := [] }, none)
      else (st, none)
  | .PROCESSING => (st, none)

/-- Feed a list of chunks through the VAD, collecting all emitted segments. -/
noncomputable def runVAD : VadSt → List (List ℝ) → VadSt × List (List ℝ)
  | st, [] => (st, [])
  | st, c :: cs =>
      let r := processChunk st c
      let rest := runVAD r.1 cs
      (rest.1, r.2.toList ++ rest.2)

/-! ## Audio preprocessing (`preprocess_audio` in `src/vad.py`) -/

/-- `np.mean`. -/
noncomputable def meanR (l : List ℝ) : ℝ := l.sum / l.length

/-- DC removal: `audio - np.mean(audio)`. -/
noncomputable def dcRemove (l : List ℝ) : List ℝ :=
  l.map (fun t => t - meanR l)

/-- First-order pre-emphasis
`np.append(audio[0], audio[1:] - 0.97 * audio[:-1])`:
the first sample is kept, every later sample `a[n]` becomes
`a[n] - 0.97 * a[n-1]`. -/
def preEmphasis (l : List ℝ) : List ℝ :=
  match l with
  | [] => []
  | x :: xs => x :: (xs.zip (x :: xs)).map (fun p => p.1 - 0.97 * p.2)

/-- `np.sqrt(np.mean(audio ** 2))`. -/
noncomputable def rmsR (l : List ℝ) : ℝ :=
  Real.sqrt ((l.map (fun t => t ^ 2)).sum / l.length)

/-- `preprocess_audio`: cast to float (identity on our reals), remove DC,
pre-emphasise, and normalise to RMS 0.1 when the RMS is positive. -/
noncomputable def preprocess_audio (l : List ℝ) : List ℝ :=
  let audio := dcRemove l
  let audio := preEmphasis audio
  let rms := rmsR audio
  if 0 < rms then audio.map (fun t => t / rms * 0.1) else audio

/-! ### VAD lemmas -/

theorem minSpeechFrames_val : minSpeechFrames = 7 := by decide

theorem maxSpeechFrames_val : maxSpeechFrames = 93 := by decide

theorem silenceFramesThreshold_val : silenceFramesThreshold = 5 := by decide

theorem computeEnergy_replicate (n : ℕ) (c : ℝ) (hn : n ≠ 0) :
    computeEnergy (List.replicate n c) = |c| := by
  unfold computeEnergy
  rw [if_neg (by simpa using hn)]
  rw [List.map_replicate, List.sum_replicate, List.length_replicate, nsmul_eq_mul,
    mul_comm, mul_div_assoc, div_self (by exact_mod_cast hn), mul_one,
    Real.sqrt_sq_eq_abs]

theorem flatten_length_of_uniform (L : List (List ℝ)) (n : ℕ)
    (h : ∀ c ∈ L, c.length = n) : L.flatten.length = n * L.length := by
  induction L with
  | nil => simp
  | cons x xs ih =>
      simp only [List.flatten_cons, List.length_append, List.length_cons]
      rw [h x (by simp), ih (fun c hc => h c (by simp [hc]))]
      ring

/-- The state invariant maintained by `processChunk`: while RECORDING the
buffer holds exactly `speechFrames` chunks, each a full chunk, and the frame
count is strictly below the max (else the state would have left RECORDING);
outside RECORDING the buffer is empty. -/
def VadInv (st : VadSt) : Prop :=
  (st.phase = .RECORDING →
    st.speechBuffer.length = st.speechFrames ∧
    1 ≤ st.speechFrames ∧ st.speechFrames < maxSpeechFrames ∧
    ∀ c ∈ st.speechBuffer, c.length = CHUNK_SIZE) ∧
  (st.phase ≠ .RECORDING → st.speechBuffer = [])

theorem vadInit_inv (bg : ℝ) : VadInv (vadInit bg) := by
  constructor
  · intro h; simp [vadInit] at h
  · intro _; rfl

theorem processChunk_inv (st : VadSt) (chunk : List ℝ)
    (hinv : VadInv st) (hc : chunk.length = CHUNK_SIZE) :
    VadInv (processChunk st chunk).1 ∧
    ∀ s, (processChunk st chunk).2 = some s →
      minSpeechFrames * CHUNK_SIZE ≤ s.length ∧
      s.length ≤ maxSpeechFrames * CHUNK_SIZE := by
  obtain ⟨hrec, hother⟩ := hinv
  cases hph : st.phase with
  | SILENCE =>
      have hbuf := hother (by simp [hph])
      simp only [processChunk, hph]
      split_ifs with hsp
      · refine ⟨⟨?_, ?_⟩, ?_⟩
        · intro _
          dsimp only
          refine ⟨rfl, le_refl 1, by rw [maxSpeechFrames_val]; omega, ?_⟩
          intro c hmem
          rw [List.mem_singleton] at hmem
          rw [hmem, hc]
        · intro h; simp at h
        · intro s hs; exact absurd hs (by simp)
      · exact ⟨⟨fun h => absurd (hph.symm.trans h) (by simp), fun _ => hbuf⟩,
          fun s hs => by exact absurd hs (by simp)⟩
  | RECORDING =>
      obtain ⟨hlen, hone, hmax, hall⟩ := hrec hph
      have happ : ∀ c ∈ st.speechBuffer ++ [chunk], c.length = CHUNK_SIZE := by
        intro c hcm
        rcases List.mem_append.1 hcm with h | h
        · exact hall c h
        · rw [List.mem_singleton] at h; rw [h, hc]
      have hflat : (st.speechBuffer ++ [chunk]).flatten.length
          = CHUNK_SIZE * (st.speechFrames + 1) := by
        rw [flatten_length_of_uniform _ _ happ]
        simp [hlen]
      simp only [processChunk, hph]
      split_ifs with hsp hend hmin hend2 hmin2
      · -- speech chunk, end-of-speech triggered, long enough: emit
        dsimp only at hmin ⊢
        refine ⟨⟨fun h => by simp at h, fun _ => rfl⟩, ?_⟩
        intro s hs
        rw [Option.some.injEq] at hs
        rw [← hs, hflat]
        constructor
        · rw [mul_comm CHUNK_SIZE]
          exact Nat.mul_le_mul_right _ hmin
        · rw [mul_comm CHUNK_SIZE]
          exact Nat.mul_le_mul_right _ (by omega)
      · -- speech chunk, triggered but too short: discard
        exact ⟨⟨fun h => by simp at h, fun _ => rfl⟩,
          fun s hs => by exact absurd hs (by simp)⟩
      · -- speech chunk, still recording
        refine ⟨⟨?_, fun h => by simp at h⟩,
          fun s hs => by exact absurd hs (by simp)⟩
        intro _
        dsimp only at hend ⊢
        exact ⟨by simp [hlen], by omega, by omega, happ⟩
      · -- silence chunk, triggered, long enough: emit
        dsimp only at hmin2 ⊢
        refine ⟨⟨fun h => by simp at h, fun _ => rfl⟩, ?_⟩
        intro s hs
        rw [Option.some.injEq] at hs
        rw [← hs, hflat]
        constructor
        · rw [mul_comm CHUNK_SIZE]
          exact Nat.mul_le_mul_right _ hmin2
        · rw [mul_comm CHUNK_SIZE]
          exact Nat.mul_le_mul_right _ (by omega)
      · -- silence chunk, triggered but too short: discard
        exact ⟨⟨fun h => by simp at h, fun _ => rfl⟩,
          fun s hs => by exact absurd hs (by simp)⟩
      · -- silence chunk, still recording
        refine ⟨⟨?_, fun h => by simp at h⟩,
          fun s hs => by exact absurd hs (by simp)⟩
        intro _
        dsimp only at hend2 ⊢
        exact ⟨by simp [hlen], by omega, by omega, happ⟩
  | PROCESSING =>
      have hbuf := hother (by simp [hph])
      simp only [processChunk, hph]
      exact ⟨⟨fun h => absurd (hph.symm.trans h) (by simp), fun _ => hbuf⟩,
        fun s hs => by exact absurd hs (by simp)⟩

theorem runVAD_bounds (chunks : List (List ℝ)) :
    ∀ st, VadInv st → (∀ c ∈ chunks, c.length = CHUNK_SIZE) →
      VadInv (runVAD st chunks).1 ∧
      ∀ s ∈ (runVAD st chunks).2,
        minSpeechFrames * CHUNK_SIZE ≤ s.length ∧
        s.length ≤ maxSpeechFrames * CHUNK_SIZE := by
  induction chunks with
  | nil => intro st hinv _; exact ⟨hinv, by intro s hs; simp [runVAD] at hs⟩
  | cons c cs ih =>
      intro st hinv hlen
      have hc : c.length = CHUNK_SIZE := hlen c (by simp)
      have hstep := processChunk_inv st c hinv hc
      have hrest := ih (processChunk st c).1 hstep.1
        (fun d hd => hlen d (by simp [hd]))
      constructor
      · exact hrest.1
      · intro s hs
        simp only [runVAD] at hs
        rcases List.mem_append.1 hs with h | h
        · exact hstep.2 s (by simpa [Option.mem_toList, Option.mem_def] using h)
        · exact hrest.2 s h

/-! ### A concrete VAD run

Two loud chunks followed by five silent ones: the silence hangover (5 frames)
fires at the seventh chunk with exactly `minSpeechFrames = 7` buffered frames,
so a 7-chunk = 1792-sample = 112 ms segment is emitted. -/

/-- A "loud" chunk: 256 samples of amplitude 1000. -/
noncomputable def speechChunk : List ℝ := List.replicate 256 1000

/-- A silent chunk: 256 zero samples. -/
noncomputable def silenceChunk : List ℝ := List.replicate 256 0

/-- Two loud chunks followed by five silent chunks. -/
noncomputable def vadDemoChunks : List (List ℝ) :=
  [speechChunk, speechChunk, silenceChunk, silenceChunk, silenceChunk,
    silenceChunk, silenceChunk]

/-- The segment the demo run emits. -/
noncomputable def vadDemoSegment : List ℝ := vadDemoChunks.flatten

theorem speechChunk_loud : getThreshold 100 < computeEnergy speechChunk := by
  rw [speechChunk, computeEnergy_replicate 256 1000 (by norm_num)]
  rw [getThreshold, VAD_ENERGY_THRESHOLD_MULT_LOW, VAD_ENERGY_THRESHOLD_MULT_HIGH]
  norm_num

theorem silenceChunk_quiet : ¬ getThreshold 100 < computeEnergy silenceChunk := by
  rw [silenceChunk, computeEnergy_replicate 256 0 (by norm_num)]
  rw [getThreshold, VAD_ENERGY_THRESHOLD_MULT_LOW, VAD_ENERGY_THRESHOLD_MULT_HIGH]
  norm_num

/-- Intermediate RECORDING state of the demo run after `k` chunks with
silence counter `j`. -/
noncomputable def vadDemoSt (buf : List (List ℝ)) (j k : ℕ) : VadSt :=
  { phase := .RECORDING, backgroundRms := 100, speechBuffer := buf,
    silenceFrames := j, speechFrames := k }

theorem vadDemo_run :
    runVAD (vadInit 100) vadDemoChunks
      = ({ phase := .PROCESSING, backgroundRms := 100, speechBuffer := [],
           silenceFrames := 5, speechFrames := 7 }, [vadDemoSegment]) := by
  have hsp := speechChunk_loud
  have hsl := silenceChunk_quiet
  have h1 : processChunk (vadInit 100) speechChunk
      = (vadDemoSt [speechChunk] 0 1, none) := by
    simp [processChunk, vadInit, vadDemoSt, hsp]
  have h2 : processChunk (vadDemoSt [speechChunk] 0 1) speechChunk
      = (vadDemoSt [speechChunk, speechChunk] 0 2, none) := by
    simp [processChunk, vadDemoSt, hsp, silenceFramesThreshold_val,
      maxSpeechFrames_val]
  have h3 : processChunk (vadDemoSt [speechChunk, speechChunk] 0 2) silenceChunk
      = (vadDemoSt [speechChunk, speechChunk, silenceChunk] 1 3, none) := by
    simp [processChunk, vadDemoSt, hsl, silenceFramesThreshold_val,
      maxSpeechFrames_val]
  have h4 : processChunk (vadDemoSt [speechChunk, speechChunk, silenceChunk] 1 3)
        silenceChunk
      = (vadDemoSt [speechChunk, speechChunk, silenceChunk, silenceChunk] 2 4,
          none) := by
    simp [processChunk, vadDemoSt, hsl, silenceFramesThreshold_val,
      maxSpeechFrames_val]
  have h5 : processChunk
        (vadDemoSt [speechChunk, speechChunk, silenceChunk, silenceChunk] 2 4)
        silenceChunk
      = (vadDemoSt
          [speechChunk, speechChunk, silenceChunk, silenceChunk, silenceChunk]
          3 5, none) := by
    simp [processChunk, vadDemoSt, hsl, silenceFramesThreshold_val,
      maxSpeechFrames_val]
  have h6 : processChunk
        (vadDemoSt
          [speechChunk, speechChunk, silenceChunk, silenceChunk, silenceChunk]
          3 5) silenceChunk
      = (vadDemoSt
          [speechChunk, speechChunk, silenceChunk, silenceChunk, silenceChunk,
            silenceChunk] 4 6, none) := by
    simp [processChunk, vadDemoSt, hsl, silenceFramesThreshold_val,
      maxSpeechFrames_val]
  have h7 : processChunk
        (vadDemoSt
          [speechChunk, speechChunk, silenceChunk, silenceChunk, silenceChunk,
            silenceChunk] 4 6) silenceChunk
      = ({ phase := .PROCESSING, backgroundRms := 100, speechBuffer := [],
            silenceFrames := 5, speechFrames := 7 }, some vadDemoSegment) := by
    simp [processChunk, vadDemoSt, hsl, silenceFramesThreshold_val,
      maxSpeechFrames_val, minSpeechFrames_val, vadDemoSegment, vadDemoChunks]
  simp only [vadDemoChunks, runVAD, h1, h2, h3, h4, h5, h6, h7]
  simp

/-- Claim C2, as stated, is false: the demo run emits a segment of
1792 samples = 112 ms, strictly below `MIN_SPEECH_MS = 120` ms (the
frame-count truncation `int(7.5) = 7` loses half a chunk). -/
theorem vadDemoChunks_lengths : ∀ c ∈ vadDemoChunks, c.length = CHUNK_SIZE := by
  intro c hc
  simp only [vadDemoChunks, List.mem_cons, List.not_mem_nil, or_false] at hc
  rcases hc with rfl | rfl | rfl | rfl | rfl | rfl | rfl <;>
    simp only [speechChunk, silenceChunk, List.length_replicate, CHUNK_SIZE]

theorem vadDemoSegment_length : vadDemoSegment.length = 1792 := by
  rw [vadDemoSegment, flatten_length_of_uniform vadDemoChunks CHUNK_SIZE
    vadDemoChunks_lengths]
  simp only [vadDemoChunks, List.length_cons, List.length_nil, CHUNK_SIZE]

theorem claim_C2_counterexample :
    (runVAD (vadInit 100) vadDemoChunks).2.map List.length = [1792] ∧
    1792 * 1000 < VAD_MIN_SPEECH_MS * SAMPLE_RATE := by
  constructor
  · rw [vadDemo_run]
    simp only [List.map_cons, List.map_nil, vadDemoSegment_length]
  · rw [VAD_MIN_SPEECH_MS, SAMPLE_RATE]; norm_num

/-- Claim C2, amended: every segment emitted by the VAD on full-size chunks
has between `minSpeechFrames * CHUNK_SIZE = 1792` samples (112 ms — this is
best possible, below the claimed 120 ms) and `maxSpeechFrames` chunks, hence
duration at most `MAX_SPEECH_MS` (1488 ms ≤ 1500 ms). -/
theorem claim_C2_segment_bounds (bg : ℝ) (chunks : List (List ℝ))
    (hlen : ∀ c ∈ chunks, c.length = CHUNK_SIZE) :
    ∀ s ∈ (runVAD (vadInit bg) chunks).2,
      minSpeechFrames * CHUNK_SIZE ≤ s.length ∧
      s.length * 1000 ≤ VAD_MAX_SPEECH_MS * SAMPLE_RATE := by
  intro s hs
  obtain ⟨h1, h2⟩ := (runVAD_bounds chunks (vadInit bg) (vadInit_inv bg) hlen).2 s hs
  refine ⟨h1, ?_⟩
  rw [maxSpeechFrames_val, CHUNK_SIZE] at h2
  rw [VAD_MAX_SPEECH_MS, SAMPLE_RATE]
  omega

theorem claim_C2_segment_bounds_witness :
    (∀ c ∈ vadDemoChunks, c.length = CHUNK_SIZE) ∧
    vadDemoSegment ∈ (runVAD (vadInit 100) vadDemoChunks).2 ∧
    minSpeechFrames * CHUNK_SIZE ≤ vadDemoSegment.length ∧
    vadDemoSegment.length * 1000 ≤ VAD_MAX_SPEECH_MS * SAMPLE_RATE := by
  have hlen := vadDemoChunks_lengths
  have hmem : vadDemoSegment ∈ (runVAD (vadInit 100) vadDemoChunks).2 := by
    rw [vadDemo_run]; simp
  exact ⟨hlen, hmem, claim_C2_segment_bounds 100 vadDemoChunks hlen vadDemoSegment hmem⟩

/-! ### Preprocessing lemmas (claim C6) -/

theorem sum_map_sq_scale (l : List ℝ) (r : ℝ) :
    ((l.map (fun t => t / r * 0.1)).map (fun t => t ^ 2)).sum
      = (0.1 / r) ^ 2 * (l.map (fun t => t ^ 2)).sum := by
  induction l with
  | nil => simp
  | cons x xs ih =>
      simp only [List.map_cons, List.sum_cons, ih]
      ring

/-- Claim C6: on any input whose pre-emphasised, DC-removed signal is not
identically zero, `preprocess_audio` returns exactly the rescaled
pre-emphasised DC-removed signal, and the RMS of the result is exactly 0.1. -/
theorem claim_C6_preprocess_rms (x : List ℝ)
    (hs : 0 < ((preEmphasis (dcRemove x)).map (fun t => t ^ 2)).sum) :
    preprocess_audio x
      = (preEmphasis (dcRemove x)).map
          (fun t => t / rmsR (preEmphasis (dcRemove x)) * 0.1) ∧
    rmsR (preprocess_audio x) = 0.1 := by
  set e := preEmphasis (dcRemove x) with he
  have hne : e ≠ [] := by
    intro h; rw [h] at hs; simp at hs
  have hn : 0 < ((e.length : ℝ)) := by
    exact_mod_cast List.length_pos.2 hne
  have hmean : 0 < (e.map (fun t => t ^ 2)).sum / (e.length : ℝ) :=
    div_pos hs hn
  have hrms : 0 < rmsR e := by
    rw [rmsR]; exact Real.sqrt_pos.2 hmean
  have hbranch : preprocess_audio x = e.map (fun t => t / rmsR e * 0.1) := by
    simp only [preprocess_audio, ← he]
    rw [if_pos hrms]
  refine ⟨hbranch, ?_⟩
  rw [hbranch, rmsR, sum_map_sq_scale, List.length_map, mul_div_assoc,
    Real.sqrt_mul (by positivity), Real.sqrt_sq_eq_abs,
    abs_of_pos (div_pos (by norm_num) hrms)]
  rw [show Real.sqrt ((e.map (fun t => t ^ 2)).sum / (e.length : ℝ)) = rmsR e
    from rfl]
  rw [div_mul_cancel₀ _ (ne_of_gt hrms)]

theorem claim_C6_preprocess_rms_witness :
    0 < ((preEmphasis (dcRemove [0, 1])).map (fun t => t ^ 2)).sum ∧
    rmsR (preprocess_audio [0, 1]) = 0.1 := by
  have hs : 0 < ((preEmphasis (dcRemove [(0:ℝ), 1])).map (fun t => t ^ 2)).sum := by
    norm_num [preEmphasis, dcRemove, meanR]
  exact ⟨hs, (claim_C6_preprocess_rms [0, 1] hs).2⟩

/-! ## LPC → LPCC conversion (`lpc_to_lpcc` in `src/audio/features.py` and
`src/features.py`; the two copies are identical)

The recursion is pure rational arithmetic, so it is embedded over `ℚ` and
stays computable. -/

/-- `np.clip(t, -50.0, 50.0)`. -/
def clip50 (t : ℚ) : ℚ := min (max t (-50)) 50

/-- The unclipped cepstral recursion: `lpccRec a order n` is the list
`[c 1, …, c n]` produced by the loop
`for n in range(1, cep_order+1)` of `lpc_to_lpcc` (before the final clip).
`a` is the LPC array `[1, a1, …, a_order]`; out-of-range accesses read 0
(every call site passes an array of length `order + 1`). -/
def lpccRec (a : List ℚ) (order : ℕ) : ℕ → List ℚ
  | 0 => []
  | n + 1 =>
      let prev := lpccRec a order n
      let m := n + 1
      let sum := ((List.range n).map (fun j =>
          let k := j + 1
          if k ≤ order then ((m - k : ℕ) : ℚ) * a.getD k 0 * prev.getD (m - k - 1) 0
          else 0)).sum
      let current_a := if m ≤ order then a.getD m 0 else 0
      prev ++ [-current_a - (1 / (m : ℚ)) * sum]

/-- `lpc_to_lpcc(a, order, cep_order)`: the cepstral recursion followed by
`np.clip(c, -50.0, 50.0)`. -/
def lpc_to_lpcc (a : List ℚ) (order cep_order : ℕ) : List ℚ :=
  (lpccRec a order cep_order).map clip50

/-- The per-frame loop of `extract_lpc_features`: each frame's LPC
coefficients are converted by `lpc_to_lpcc(a, order, order)`. -/
def lpccMatrix (frames : List (List ℚ)) (order : ℕ) : List (List ℚ) :=
  frames.map (fun a => lpc_to_lpcc a order order)

theorem abs_clip50_le (t : ℚ) : |clip50 t| ≤ 50 := by
  rw [abs_le, clip50]
  constructor
  · exact le_min (le_trans (by norm_num) (le_max_right t (-50))) (by norm_num)
  · exact min_le_right _ _

/-- Claim C7: every coefficient emitted by `lpc_to_lpcc` is clipped to
`[-50, 50]`, hence every entry of the LPCC feature matrix is bounded by 50
in absolute value. -/
theorem claim_C7_lpcc_bounded (a : List ℚ) (order cep_order : ℕ) :
    (∀ c ∈ lpc_to_lpcc a order cep_order, |c| ≤ 50) ∧
    ∀ (frames : List (List ℚ)), ∀ row ∈ lpccMatrix frames order,
      ∀ c ∈ row, |c| ≤ 50 := by
  constructor
  · intro c hc
    rw [lpc_to_lpcc, List.mem_map] at hc
    obtain ⟨t, _, rfl⟩ := hc
    exact abs_clip50_le t
  · intro frames row hrow c hc
    rw [lpccMatrix, List.mem_map] at hrow
    obtain ⟨fr, _, rfl⟩ := hrow
    rw [lpc_to_lpcc, List.mem_map] at hc
    obtain ⟨t, _, rfl⟩ := hc
    exact abs_clip50_le t

theorem claim_C7_lpcc_bounded_witness :
    (-2 : ℚ) ∈ lpc_to_lpcc [1, 2] 1 2 ∧ |(-2 : ℚ)| ≤ 50 := by
  have heval : lpc_to_lpcc [1, 2] 1 2 = [-2, 2] := by
    norm_num [lpc_to_lpcc, lpccRec, List.range_succ, clip50, max_def, min_def]
  have hmem : (-2 : ℚ) ∈ lpc_to_lpcc [1, 2] 1 2 := by rw [heval]; simp
  exact ⟨hmem, (claim_C7_lpcc_bounded [1, 2] 1 2).1 (-2) hmem⟩

/-! ## Mel-template distance (`mel_distance` in `src/audio/features.py` and
`src/features.py`) -/

/-- `np.dot` on flattened templates. -/
noncomputable def dotR (v w : List ℝ) : ℝ :=
  ((v.zip w).map (fun p => p.1 * p.2)).sum

/-- `np.linalg.norm`: the Euclidean norm. -/
noncomputable def normR (v : List ℝ) : ℝ :=
  Real.sqrt ((v.map (fun t => t ^ 2)).sum)

/-- `mel_distance(mel1, mel2, metric)`.  The unknown-metric `ValueError`
branch is modelled by `none`. -/
noncomputable def mel_distance (mel1 mel2 : List (List ℝ)) (metric : String) :
    Option ℝ :=
  let f1 := mel1.flatten
  let f2 := mel2.flatten
  if metric = "euclidean" then
    some (Real.sqrt (((f1.zip f2).map (fun p => (p.1 - p.2) ^ 2)).sum))
  else if metric = "cosine" then
    some (if normR f1 = 0 ∨ normR f2 = 0 then 1
          else 1 - dotR f1 f2 / (normR f1 * normR f2))
  else none

/-- Claim C10: the cosine branch of `mel_distance` is total — it returns
`1.0` whenever either flattened input has zero norm, and only divides by
the product of the norms when that product is provably nonzero. -/
theorem claim_C10_mel_cosine_total (mel1 mel2 : List (List ℝ)) :
    (normR mel1.flatten = 0 ∨ normR mel2.flatten = 0 →
      mel_distance mel1 mel2 "cosine" = some 1) ∧
    (normR mel1.flatten ≠ 0 → normR mel2.flatten ≠ 0 →
      normR mel1.flatten * normR mel2.flatten ≠ 0 ∧
      mel_distance mel1 mel2 "cosine"
        = some (1 - dotR mel1.flatten mel2.flatten
            / (normR mel1.flatten * normR mel2.flatten))) := by
  constructor
  · intro h
    rw [mel_distance]
    rw [if_neg (by decide), if_pos rfl, if_pos h]
  · intro h1 h2
    refine ⟨mul_ne_zero h1 h2, ?_⟩
    rw [mel_distance]
    rw [if_neg (by decide), if_pos rfl,
      if_neg (by rintro (h | h) <;> [exact h1 h; exact h2 h])]

theorem claim_C10_mel_cosine_total_witness :
    normR (([[0]] : List (List ℝ)).flatten) = 0 ∧
    mel_distance [[(0 : ℝ)]] [[1]] "cosine" = some 1 := by
  have h : normR (([[0]] : List (List ℝ)).flatten) = 0 := by
    simp [normR]
  exact ⟨h, (claim_C10_mel_cosine_total [[0]] [[1]]).1 (Or.inl h)⟩

/-! ## DTW distances (`src/recognizers/dtw.py`, `src/audio/recognizers.py`)

Both `dtw_distance` functions delegate the actual alignment to the external
`fastdtw` library (not part of this repository).  Its cost is modelled from
the spec: "length-normalised dynamic-time-warping distance using Euclidean
step cost and a Sakoe–Chiba band of radius `DTW_RADIUS`" — i.e. the minimal
accumulated Euclidean cost over monotone alignment paths restricted to the
band, here as the standard DP recurrence. -/

/-- `scipy.spatial.distance.euclidean` between two feature frames. -/
noncomputable def eudist (x y : List ℝ) : ℝ :=
  Real.sqrt (((x.zip y).map (fun p => (p.1 - p.2) ^ 2)).sum)

/-- Membership of cell `(i, j)` in the Sakoe–Chiba band of radius `r`. -/
def inBand (r i j : ℕ) : Prop := i ≤ j + r ∧ j ≤ i + r

instance (r i j : ℕ) : Decidable (inBand r i j) := by
  rw [inBand]; infer_instance

/-- Modelled from the spec: the banded-DTW dynamic program underlying the
external `fastdtw` call.  `dtwD r a b i j` is the minimal accumulated
Euclidean step cost of an alignment path from `(0,0)` to `(i,j)` staying in
the band; `⊤` (= `float('inf')`) when no such path exists. -/
noncomputable def dtwD (r : ℕ) (a b : List (List ℝ)) : ℕ → ℕ → WithTop ℝ
  | 0, 0 =>
      if inBand r 0 0 then (eudist (a.getD 0 []) (b.getD 0 []) : WithTop ℝ)
      else ⊤
  | i + 1, 0 =>
      if inBand r (i + 1) 0 then
        (eudist (a.getD (i + 1) []) (b.getD 0 []) : WithTop ℝ) + dtwD r a b i 0
      else ⊤
  | 0, j + 1 =>
      if inBand r 0 (j + 1) then
        (eudist (a.getD 0 []) (b.getD (j + 1) []) : WithTop ℝ) + dtwD r a b 0 j
      else ⊤
  | i + 1, j + 1 =>
      if inBand r (i + 1) (j + 1) then
        (eudist (a.getD (i + 1) []) (b.getD (j + 1) []) : WithTop ℝ)
          + min (min (dtwD r a b i (j + 1)) (dtwD r a b (i + 1) j))
              (dtwD r a b i j)
      else ⊤
  termination_by i j => (i, j)

/-- Modelled from the spec: the distance returned by `fastdtw(a, b, radius,
dist=euclidean)`. -/
noncomputable def fastdtwCost (r : ℕ) (a b : List (List ℝ)) : WithTop ℝ :=
  dtwD r a b (a.length - 1) (b.length - 1)

/-- `dtw_distance` (`src/recognizers/dtw.py`): `inf` when either sequence is
empty, else the fastdtw cost. -/
noncomputable def dtw_distance (a b : List (List ℝ)) (r : ℕ) : WithTop ℝ :=
  if a.length = 0 ∨ b.length = 0 then ⊤ else fastdtwCost r a b

/-- `dtw_distance_normalized` (`src/recognizers/dtw.py`): the raw distance
divided by `len(seq1) + len(seq2)` when that is positive, else `inf`. -/
noncomputable def dtw_distance_normalized (a b : List (List ℝ)) (r : ℕ) :
    WithTop ℝ :=
  let dist := dtw_distance a b r
  let path_length := a.length + b.length
  if 0 < path_length then dist.map (fun d => d / path_length) else ⊤

theorem eudist_self (x : List ℝ) : eudist x x = 0 := by
  rw [eudist]
  have : ((x.zip x).map (fun p => (p.1 - p.2) ^ 2)).sum = 0 := by
    induction x with
    | nil => simp
    | cons t ts ih => simpa using ih
  rw [this, Real.sqrt_zero]

theorem eudist_comm (x y : List ℝ) : eudist x y = eudist y x := by
  rw [eudist, eudist]
  congr 1
  induction x generalizing y with
  | nil => cases y <;> simp
  | cons t ts ih =>
      cases y with
      | nil => simp
      | cons u us =>
          simp only [List.zip_cons_cons, List.map_cons, List.sum_cons]
          rw [ih us, show (t - u) ^ 2 = (u - t) ^ 2 by ring]

theorem eudist_nonneg (x y : List ℝ) : 0 ≤ eudist x y := Real.sqrt_nonneg _

theorem inBand_comm (r i j : ℕ) : inBand r i j = inBand r j i := by
  rw [inBand, inBand]
  exact propext and_comm

theorem dtwD_nonneg (r : ℕ) (a b : List (List ℝ)) :
    ∀ i j, 0 ≤ dtwD r a b i j := by
  intro i
  induction i with
  | zero =>
      intro j
      induction j with
      | zero =>
          simp only [dtwD]
          split_ifs
          · exact_mod_cast eudist_nonneg _ _
          · exact le_top
      | succ j ihj =>
          simp only [dtwD]
          split_ifs
          · exact add_nonneg (by exact_mod_cast eudist_nonneg _ _) ihj
          · exact le_top
  | succ i ihi =>
      intro j
      induction j with
      | zero =>
          simp only [dtwD]
          split_ifs
          · exact add_nonneg (by exact_mod_cast eudist_nonneg _ _) (ihi 0)
          · exact le_top
      | succ j ihj =>
          simp only [dtwD]
          split_ifs
          · exact add_nonneg (by exact_mod_cast eudist_nonneg _ _)
              (le_min (le_min (ihi (j + 1)) ihj) (ihi j))
          · exact le_top

theorem dtwD_self (r : ℕ) (a : List (List ℝ)) : ∀ i, dtwD r a a i i = 0 := by
  intro i
  induction i with
  | zero =>
      simp only [dtwD]
      rw [if_pos (by constructor <;> omega), eudist_self]
      rfl
  | succ i ih =>
      simp only [dtwD]
      rw [if_pos (by constructor <;> omega), eudist_self, ih,
        min_eq_right (le_min (dtwD_nonneg r a a i (i + 1))
          (dtwD_nonneg r a a (i + 1) i))]
      simp

theorem dtwD_comm (r : ℕ) (a b : List (List ℝ)) :
    ∀ i j, dtwD r a b i j = dtwD r b a j i := by
  intro i
  induction i with
  | zero =>
      intro j
      induction j with
      | zero =>
          simp only [dtwD]
          rw [eudist_comm]
      | succ j ihj =>
          simp only [dtwD]
          rw [eudist_comm, ihj]
          exact if_congr (iff_of_eq (inBand_comm r 0 (j + 1))) rfl rfl
  | succ i ihi =>
      intro j
      induction j with
      | zero =>
          simp only [dtwD]
          rw [eudist_comm, ihi 0]
          exact if_congr (iff_of_eq (inBand_comm r (i + 1) 0)) rfl rfl
      | succ j ihj =>
          simp only [dtwD]
          rw [eudist_comm, ihi (j + 1), ihj, ihi j,
            min_comm (dtwD r b a (j + 1) i) (dtwD r b a j (i + 1))]
          exact if_congr (iff_of_eq (inBand_comm r (i + 1) (j + 1))) rfl rfl

/-- Claim C8: for nonempty inputs and any band radius, the DTW distance is
zero on identical sequences and symmetric in its arguments; the same holds
for the length-normalised variant. -/
theorem claim_C8_dtw_identity_symmetry (a b : List (List ℝ)) (r : ℕ)
    (ha : a ≠ []) (hb : b ≠ []) :
    dtw_distance a a r = 0 ∧
    dtw_distance a b r = dtw_distance b a r ∧
    dtw_distance_normalized a a r = 0 ∧
    dtw_distance_normalized a b r = dtw_distance_normalized b a r := by
  have ha' : a.length ≠ 0 := fun h => ha (List.length_eq_zero.1 h)
  have hb' : b.length ≠ 0 := fun h => hb (List.length_eq_zero.1 h)
  have hid : dtw_distance a a r = 0 := by
    rw [dtw_distance, if_neg (by tauto), fastdtwCost, dtwD_self]
  have hsym : dtw_distance a b r = dtw_distance b a r := by
    rw [dtw_distance, dtw_distance, if_neg (by tauto), if_neg (by tauto),
      fastdtwCost, fastdtwCost, dtwD_comm]
  refine ⟨hid, hsym, ?_, ?_⟩
  · simp only [dtw_distance_normalized]
    rw [if_pos (by omega), hid,
      show (0 : WithTop ℝ) = ((0 : ℝ) : WithTop ℝ) from rfl, WithTop.map_coe]
    norm_num
  · simp only [dtw_distance_normalized]
    rw [hsym, Nat.add_comm a.length b.length]

theorem claim_C8_dtw_identity_symmetry_witness :
    (([[(1 : ℝ)]] : List (List ℝ)) ≠ []) ∧
    (([[(2 : ℝ)]] : List (List ℝ)) ≠ []) ∧
    (dtw_distance [[(1 : ℝ)]] [[(1 : ℝ)]] 5 = 0 ∧
     dtw_distance [[(1 : ℝ)]] [[(2 : ℝ)]] 5
       = dtw_distance [[(2 : ℝ)]] [[(1 : ℝ)]] 5 ∧
     dtw_distance_normalized [[(1 : ℝ)]] [[(1 : ℝ)]] 5 = 0 ∧
     dtw_distance_normalized [[(1 : ℝ)]] [[(2 : ℝ)]] 5
       = dtw_distance_normalized [[(2 : ℝ)]] [[(1 : ℝ)]] 5) :=
  ⟨by simp, by simp,
    claim_C8_dtw_identity_symmetry [[(1 : ℝ)]] [[(2 : ℝ)]] 5 (by simp) (by simp)⟩

/-! ## Template matchers (`src/audio/recognizers.py`)

`TemplateMatcher.recognize` and `FastLPCMatcher.recognize` have textually
identical bodies except for the distance: the former dispatches through
`self._compute_distance` (DTW / mel / Euclidean depending on `self.method`),
the latter inlines the Euclidean distance on flattened fixed-size LPCC
vectors.  The shared body is embedded once, parameterised by the distance
function; `float` distances live in `WithTop ℝ` (`⊤ = float('inf')`). -/

/-- The tuple returned by `recognize`:
`(command, distance, best_template_name, all_distances, noise_distance)`. -/
structure RecoResult : Type where
  command : String
  distance : WithTop ℝ
  bestTemplate : String
  allDistances : List (String × String × WithTop ℝ)
  noiseDistance : WithTop ℝ

/-- The store both matcher classes carry: `self.templates` (a dict
`command ↦ feature list`, here with the parallel `self.template_names` list
fused in), `self.noise_templates` and `self.threshold`. -/
structure Matcher (α : Type) : Type where
  templates : List (String × List (String × α))
  noise_templates : List α
  threshold : ℝ

/-- The common body of the two `recognize` methods.  The matcher state is
returned alongside the result: the Python methods never assign to `self`,
and the embedding makes that explicit. -/
noncomputable def recognizeFrom {α : Type} (d : α → α → WithTop ℝ)
    (extract : List ℝ → α) (m : Matcher α) (audio : List ℝ)
    (features? : Option α) : RecoResult × Matcher α :=
  if m.templates.isEmpty then
    (⟨"NONE", ⊤, "", [], ⊤⟩, m)
  else
    let features := features?.getD (extract audio)
    let all := m.templates.flatMap (fun ct =>
      ct.2.map (fun nf => (ct.1, nf.1, d features nf.2)))
    let best := all.foldl
      (fun b e => if e.2.2 < b.2.2 then e else b) ("NONE", "", (⊤ : WithTop ℝ))
    let noise := m.noise_templates.foldl
      (fun nd f => if d features f < nd then d features f else nd)
      (⊤ : WithTop ℝ)
    let sorted := all.mergeSort (fun x y => decide (x.2.2 ≤ y.2.2))
    if noise < best.2.2 then
      (⟨"NOISE", noise, "noise_template", sorted, noise⟩, m)
    else if (m.threshold : WithTop ℝ) < best.2.2 then
      (⟨"NONE", best.2.2, best.2.1, sorted, noise⟩, m)
    else
      (⟨best.1, best.2.2, best.2.1, sorted, noise⟩, m)

/-- `TemplateMatcher.recognize`, with `self._compute_distance` as the
parameter `d` and `self._extract_features` as `extract`. -/
noncomputable def TemplateMatcher.recognize {α : Type} (d : α → α → WithTop ℝ)
    (extract : List ℝ → α) (m : Matcher α) (audio : List ℝ)
    (features? : Option α) : RecoResult × Matcher α :=
  recognizeFrom d extract m audio features?

/-- `FastLPCMatcher.recognize`: same body with
`np.sqrt(np.sum((features - template) ** 2))` as the distance. -/
noncomputable def FastLPCMatcher.recognize (m : Matcher (List ℝ))
    (extract : List ℝ → List ℝ) (audio : List ℝ)
    (features? : Option (List ℝ)) : RecoResult × Matcher (List ℝ) :=
  recognizeFrom (fun x y => (eudist x y : WithTop ℝ)) extract m audio features?

/-! ### Fold lemmas for the selection loops -/

theorem selectFold_dist (l : List (String × String × WithTop ℝ)) :
    ∀ init, (l.foldl (fun b e => if e.2.2 < b.2.2 then e else b) init).2.2
      = l.foldl (fun acc e => min acc e.2.2) init.2.2 := by
  induction l with
  | nil => intro _; rfl
  | cons x xs ih =>
      intro init
      simp only [List.foldl_cons]
      rw [ih]
      congr 1
      by_cases h : x.2.2 < init.2.2
      · rw [if_pos h, min_eq_right (le_of_lt h)]
      · rw [if_neg h, min_eq_left (not_lt.1 h)]

theorem selectFold_mem (l : List (String × String × WithTop ℝ)) :
    ∀ init, l.foldl (fun b e => if e.2.2 < b.2.2 then e else b) init = init
      ∨ l.foldl (fun b e => if e.2.2 < b.2.2 then e else b) init ∈ l := by
  induction l with
  | nil => intro _; left; rfl
  | cons x xs ih =>
      intro init
      simp only [List.foldl_cons]
      rcases ih (if x.2.2 < init.2.2 then x else init) with h | h
      · by_cases hx : x.2.2 < init.2.2
        · right; rw [h, if_pos hx]; exact List.mem_cons_self x xs
        · left; rw [h, if_neg hx]
      · right; exact List.mem_cons_of_mem x h

theorem minFold_le_init {γ : Type} (f : γ → WithTop ℝ) (l : List γ) :
    ∀ init, l.foldl (fun acc e => min acc (f e)) init ≤ init := by
  induction l with
  | nil => intro _; exact le_refl _
  | cons x xs ih =>
      intro init
      simp only [List.foldl_cons]
      exact le_trans (ih (min init (f x))) (min_le_left _ _)

theorem minFold_le_mem {γ : Type} (f : γ → WithTop ℝ) (l : List γ) :
    ∀ init, ∀ e ∈ l, l.foldl (fun acc e => min acc (f e)) init ≤ f e := by
  induction l with
  | nil => intro _ e he; exact absurd he (List.not_mem_nil e)
  | cons x xs ih =>
      intro init e he
      simp only [List.foldl_cons]
      rcases List.mem_cons.1 he with rfl | he
      · exact le_trans (minFold_le_init f xs (min init (f e))) (min_le_right _ _)
      · exact ih (min init (f x)) e he

theorem noiseFold_eq_minFold {α : Type} (d : α → α → WithTop ℝ) (features : α)
    (l : List α) (init : WithTop ℝ) :
    l.foldl (fun nd f => if d features f < nd then d features f else nd) init
      = l.foldl (fun acc f => min acc (d features f)) init := by
  induction l generalizing init with
  | nil => rfl
  | cons x xs ih =>
      simp only [List.foldl_cons]
      rw [ih]
      congr 1
      by_cases h : d features x < init
      · rw [if_pos h, min_eq_right (le_of_lt h)]
      · rw [if_neg h, min_eq_left (not_lt.1 h)]

/-- The decision contract of one `recognize` call with a non-empty template
store: `NOISE` when some noise template is strictly nearer than every
command template, `NONE` when the best command distance exceeds the
threshold, else the command (and name) of the nearest command template. -/
def DecisionSpec {α : Type} (d : α → α → WithTop ℝ) (m : Matcher α)
    (features : α) (r : RecoResult) : Prop :=
  let all := m.templates.flatMap (fun ct =>
    ct.2.map (fun nf => (ct.1, nf.1, d features nf.2)))
  let cmdMin := all.foldl (fun acc e => min acc e.2.2) (⊤ : WithTop ℝ)
  let noiseMin := m.noise_templates.foldl
    (fun acc f => min acc (d features f)) (⊤ : WithTop ℝ)
  (noiseMin < cmdMin → r.command = "NOISE" ∧ r.distance = noiseMin) ∧
  (¬ noiseMin < cmdMin → (m.threshold : WithTop ℝ) < cmdMin →
      r.command = "NONE" ∧ r.distance = cmdMin) ∧
  (¬ noiseMin < cmdMin → ¬ (m.threshold : WithTop ℝ) < cmdMin →
      r.distance = cmdMin ∧ (r.command, r.bestTemplate, cmdMin) ∈ all ∧
      ∀ e ∈ all, cmdMin ≤ e.2.2)

theorem recognizeFrom_spec {α : Type} (d : α → α → WithTop ℝ)
    (extract : List ℝ → α) (m : Matcher α) (audio : List ℝ)
    (features? : Option α) (hne : m.templates ≠ []) :
    DecisionSpec d m (features?.getD (extract audio))
      (recognizeFrom d extract m audio features?).1 := by
  rw [DecisionSpec]
  simp only [recognizeFrom,
    if_neg (by simpa [List.isEmpty_iff] using hne : ¬ m.templates.isEmpty = true)]
  set features := features?.getD (extract audio) with hfeat
  set all := m.templates.flatMap (fun ct =>
    ct.2.map (fun nf => (ct.1, nf.1, d features nf.2))) with hall
  set best := all.foldl
    (fun b e => if e.2.2 < b.2.2 then e else b)
    ("NONE", "", (⊤ : WithTop ℝ)) with hbest
  set cmdMin := all.foldl (fun acc e => min acc e.2.2) (⊤ : WithTop ℝ)
    with hcmdMin
  set noiseMin := m.noise_templates.foldl
    (fun acc f => min acc (d features f)) (⊤ : WithTop ℝ) with hnoiseMin
  have hdist : best.2.2 = cmdMin := by
    rw [hbest, selectFold_dist all ("NONE", "", (⊤ : WithTop ℝ))]
  have hnf : m.noise_templates.foldl
      (fun nd f => if d features f < nd then d features f else nd)
      (⊤ : WithTop ℝ) = noiseMin :=
    noiseFold_eq_minFold d features m.noise_templates ⊤
  rw [hnf, hdist]
  split_ifs with h1 h2
  · refine ⟨fun _ => ⟨rfl, rfl⟩, fun hcon _ => absurd h1 hcon,
      fun hcon _ => absurd h1 hcon⟩
  · exact ⟨fun hcon => absurd hcon h1, fun _ _ => ⟨rfl, rfl⟩,
      fun _ hcon => absurd h2 hcon⟩
  · refine ⟨fun hcon => absurd hcon h1, fun _ hcon => absurd hcon h2, ?_⟩
    intro _ _
    refine ⟨rfl, ?_, fun e he => minFold_le_mem (fun e => e.2.2) all ⊤ e he⟩
    have hmem := selectFold_mem all ("NONE", "", (⊤ : WithTop ℝ))
    rw [← hbest] at hmem
    rcases hmem with hinit | hmem
    · exfalso
      have : best.2.2 = ⊤ := by rw [hinit]
      rw [hdist] at this
      rw [this] at h2
      exact h2 (WithTop.coe_lt_top m.threshold)
    · have : (best.1, best.2.1, best.2.2) = best := rfl
      rw [← hdist]
      simpa [this] using hmem

/-- Claim C1: the decision logic of both matchers with a non-empty template
store — noise rejection first, then the threshold test, else the nearest
command template. -/
theorem claim_C1_recognize_decision {α : Type} (d : α → α → WithTop ℝ)
    (extract : List ℝ → α) (m : Matcher α) (audio : List ℝ)
    (features? : Option α) (hne : m.templates ≠ [])
    (mF : Matcher (List ℝ)) (extractF : List ℝ → List ℝ) (audioF : List ℝ)
    (featuresF? : Option (List ℝ)) (hneF : mF.templates ≠ []) :
    DecisionSpec d m (features?.getD (extract audio))
      (TemplateMatcher.recognize d extract m audio features?).1 ∧
    DecisionSpec (fun x y => (eudist x y : WithTop ℝ)) mF
      (featuresF?.getD (extractF audioF))
      (FastLPCMatcher.recognize mF extractF audioF featuresF?).1 :=
  ⟨recognizeFrom_spec d extract m audio features? hne,
    recognizeFrom_spec _ extractF mF audioF featuresF? hneF⟩

/-- A one-template matcher over trivial features, for the C1 witness. -/
noncomputable def demoMatcherU : Matcher Unit :=
  { templates := [("JUMP", [("t1", ())])], noise_templates := [],
    threshold := 50 }

/-- A one-template matcher over flattened features, for the C1 witness. -/
noncomputable def demoMatcherF : Matcher (List ℝ) :=
  { templates := [("JUMP", [("t1", [0])])], noise_templates := [],
    threshold := 50 }

theorem claim_C1_recognize_decision_witness :
    demoMatcherU.templates ≠ [] ∧
    DecisionSpec (fun _ _ => (1 : WithTop ℝ)) demoMatcherU ()
      (TemplateMatcher.recognize (fun _ _ => (1 : WithTop ℝ))
        (fun _ => ()) demoMatcherU [] (some ())).1 := by
  refine ⟨by simp [demoMatcherU], ?_⟩
  exact (claim_C1_recognize_decision (fun _ _ => (1 : WithTop ℝ)) (fun _ => ())
    demoMatcherU [] (some ()) (by simp [demoMatcherU])
    demoMatcherF id [] (some [0]) (by simp [demoMatcherF])).1

/-- Claim C9: with an empty command-template store, both `recognize`
methods return exactly `('NONE', inf, '', [], inf)` for every audio input,
every (never invoked) feature extractor and every pre-computed feature
argument, and leave the matcher state untouched. -/
theorem claim_C9_empty_store {α : Type} (d : α → α → WithTop ℝ)
    (extract : List ℝ → α) (m : Matcher α) (audio : List ℝ)
    (features? : Option α) (hemp : m.templates = [])
    (mF : Matcher (List ℝ)) (extractF : List ℝ → List ℝ) (audioF : List ℝ)
    (featuresF? : Option (List ℝ)) (hempF : mF.templates = []) :
    TemplateMatcher.recognize d extract m audio features?
        = (⟨"NONE", ⊤, "", [], ⊤⟩, m) ∧
    FastLPCMatcher.recognize mF extractF audioF featuresF?
        = (⟨"NONE", ⊤, "", [], ⊤⟩, mF) := by
  constructor
  · rw [TemplateMatcher.recognize, recognizeFrom,
      if_pos (by simp [hemp] : m.templates.isEmpty = true)]
  · rw [FastLPCMatcher.recognize, recognizeFrom,
      if_pos (by simp [hempF] : mF.templates.isEmpty = true)]

/-- An empty matcher over trivial features, for the C9 witness. -/
noncomputable def emptyMatcherU : Matcher Unit :=
  { templates := [], noise_templates := [], threshold := 50 }

/-- An empty matcher over flattened features, for the C9 witness. -/
noncomputable def emptyMatcherF : Matcher (List ℝ) :=
  { templates := [], noise_templates := [], threshold := 100 }

theorem claim_C9_empty_store_witness :
    emptyMatcherU.templates = [] ∧
    TemplateMatcher.recognize (fun _ _ => (⊤ : WithTop ℝ)) (fun _ => ())
        emptyMatcherU [] none
      = (⟨"NONE", ⊤, "", [], ⊤⟩, emptyMatcherU) ∧
    FastLPCMatcher.recognize emptyMatcherF id [] none
      = (⟨"NONE", ⊤, "", [], ⊤⟩, emptyMatcherF) := by
  have h := claim_C9_empty_store (fun _ _ => (⊤ : WithTop ℝ)) (fun _ => ())
    emptyMatcherU [] none rfl emptyMatcherF id [] none rfl
  exact ⟨rfl, h.1, h.2⟩

/-! ## ECG peak detector (`src/ecg/adapter.py`)

The scipy filter chain (`lfilter` with carried state) is external to the
repository model: each serial batch arrives here as the filter outputs
`out_ma1` (smoothed display signal) and `out_mwi` (moving-window-integrated
signal), as arbitrary rational sequences.  The peak-detection loop, the
refractory/back-search logic, the RR/BPM bookkeeping and the event
publishing are embedded verbatim over `ℚ`. -/

/-- The two events the adapter publishes per heartbeat. -/
inductive ECGEvent : Type
  | peak (dir : ℤ) (value : ℚ) (bpm : ℚ)
  | bpmUpdate (bpm : ℚ)
deriving DecidableEq, Repr

/-- `deque[-k]`: the `k`-th element from the end (`0` as don't-care
default; the code never reads out of range on the always-full buffers). -/
def getEnd (l : List ℚ) (k : ℕ) : ℚ := l.getD (l.length - k) 0

/-- `list(buf)[-n:]`. -/
def lastN {γ : Type} (l : List γ) (n : ℕ) : List γ := l.drop (l.length - n)

/-- `np.max` (the guard `if search_data:` makes the empty case dead code). -/
def maxList (l : List ℚ) : ℚ :=
  match l with
  | [] => 0
  | x :: xs => xs.foldl max x

/-- `np.argmax`: the first index attaining the maximum. -/
def argmaxList (l : List ℚ) : ℕ := l.indexOf (maxList l)

/-- `np.mean` over `ℚ`. -/
def meanQ (l : List ℚ) : ℚ := l.sum / l.length

/-- `deque(maxlen=5).append`: drop the oldest entry beyond five. -/
def dequePush5 (l : List ℚ) (x : ℚ) : List ℚ :=
  let grown := l ++ [x]
  if 5 < grown.length then grown.tail else grown

/-- `self.REFRACTORY_PERIOD = int(0.25 * self.FS)` (`int` truncates; the
sample rate is positive in every construction, so this is the floor). -/
def REFRACTORY (FS : ℚ) : ℤ := ⌊FS / 4⌋

/-- `self.SEARCH_WIN = int(0.1 * self.FS)`. -/
def SEARCH_WIN (FS : ℚ) : ℕ := (⌊FS / 10⌋).toNat

/-- `self.BUF_LEN = int(self.FS * 3)`. -/
def BUF_LEN (FS : ℚ) : ℕ := (⌊FS * 3⌋).toNat

/-- The detector state `ECGAdapter` carries across serial batches. -/
structure DetSt : Type where
  ma1Buf : List ℚ
  mwiBuf : List ℚ
  sampleCounter : ℕ
  lastPeakAbsIdx : ℤ
  hist : List ℤ
  rrHistory : List ℚ
  thresholdMwi : ℚ
  signalMean : ℚ
  lastPeakDir : ℤ
deriving Repr

/-- The detector fields of `ECGAdapter.__init__`. -/
def detInit (FS : ℚ) : DetSt :=
  { ma1Buf := List.replicate (BUF_LEN FS) 0
    mwiBuf := List.replicate (BUF_LEN FS) 0
    sampleCounter := 0
    lastPeakAbsIdx := -(REFRACTORY FS)
    hist := []
    rrHistory := []
    thresholdMwi := 50
    signalMean := 120
    lastPeakDir := 1 }

/-- The dynamic-threshold refresh executed every 50 samples
(`self.threshold_mwi = 0.4 * max(recent)`, floored at 10). -/
def thrUpdate (FS : ℚ) (currAbs : ℕ) (st : DetSt) : DetSt :=
  if currAbs % 50 = 0 then
    let recent := lastN st.mwiBuf (⌊FS⌋).toNat
    if recent.isEmpty then st
    else
      let t := 0.4 * maxList recent
      { st with thresholdMwi := if t < 10 then 10 else t }
  else st

/-- The confirmed-peak bookkeeping of `_process_real_ecg`: append the
refined index to the history, move the refractory anchor and — when there
is a previous peak and the RR interval lies strictly inside
`(0.4 s, 1.5 s)` — push the interval into the 5-slot window and publish
`ECG_PEAK` followed by `ECG_BPM_UPDATE`. -/
def confirmPeak (FS : ℚ) (realPeakAbs : ℤ) (localMax : ℚ)
    (acc : DetSt × List ECGEvent) : DetSt × List ECGEvent :=
  let st := acc.1
  let newHist := st.hist ++ [realPeakAbs]
  let st' := { st with hist := newHist, lastPeakAbsIdx := realPeakAbs }
  if 2 ≤ newHist.length then
    let prevPeak := st.hist.getLastD 0
    let rr := ((realPeakAbs - prevPeak : ℤ) : ℚ) / FS
    if 0.4 < rr ∧ rr < 1.5 then
      let rrh := dequePush5 st.rrHistory rr
      let bpm := 60 / meanQ rrh
      let dir := -st.lastPeakDir
      ({ st' with rrHistory := rrh, lastPeakDir := dir },
        acc.2 ++ [.peak dir localMax bpm, .bpmUpdate bpm])
    else (st', acc.2)
  else (st', acc.2)

/-- The candidate examination after the guards: peak shape test against the
dynamic threshold, the first refractory check, the back-search for the
display-signal local maximum, the amplitude check, and the re-applied
refractory check on the refined index. -/
def scanPeak (FS : ℚ) (batchLen k currAbs : ℕ)
    (acc : DetSt × List ECGEvent) : DetSt × List ECGEvent :=
  let st := acc.1
  let currMwi := getEnd st.mwiBuf k
  let prevMwi := getEnd st.mwiBuf (k + 1)
  let prev2Mwi := getEnd st.mwiBuf (k + 2)
  if prevMwi > st.thresholdMwi ∧ prevMwi > currMwi ∧ prevMwi > prev2Mwi then
    let peakCandidateAbs : ℤ := (currAbs : ℤ) - 1
    if REFRACTORY FS < peakCandidateAbs - st.lastPeakAbsIdx then
      let tailLen : ℕ := SEARCH_WIN FS + batchLen + 10
      let tail := lastN st.ma1Buf tailLen
      let tEnd : ℤ := (tail.length : ℤ) - (k + 1)
      let tStart0 : ℤ := tEnd - SEARCH_WIN FS
      let tStart : ℤ := if tStart0 < 0 then 0 else tStart0
      if tStart < tEnd then
        let searchData := (tail.drop tStart.toNat).take (tEnd - tStart).toNat
        if searchData.isEmpty then acc
        else
          let localMax := maxList searchData
          let localMaxIdx := argmaxList searchData
          if st.signalMean + 5 < localMax then
            let offset : ℤ := (searchData.length : ℤ) - localMaxIdx
            let realPeakAbs := peakCandidateAbs - offset
            if REFRACTORY FS < realPeakAbs - st.lastPeakAbsIdx then
              confirmPeak FS realPeakAbs localMax acc
            else acc
          else acc
      else acc
    else acc
  else acc

/-- One iteration of `for i in range(len(out_mwi))` in
`_process_real_ecg`, after the buffers have been extended with the batch.
`acc` carries the state plus the events published so far. -/
def detStep (FS : ℚ) (batchLen : ℕ) (acc : DetSt × List ECGEvent) (i : ℕ) :
    DetSt × List ECGEvent :=
  let st := acc.1
  let currAbs : ℕ := st.sampleCounter + i
  let k := batchLen - i
  if st.mwiBuf.length < 3 then acc
  else if k < 3 then acc
  else scanPeak FS batchLen k currAbs (thrUpdate FS currAbs st, acc.2)

/-- `_process_real_ecg` on one filtered batch: extend the bounded buffers,
update the rolling baseline, scan every new sample, bump the counter.
`acc` also carries the events published on the bus so far. -/
def processBatch (FS : ℚ) (acc : DetSt × List ECGEvent) (ma1 mwi : List ℚ) :
    DetSt × List ECGEvent :=
  let st := acc.1
  let st := { st with
    ma1Buf := lastN (st.ma1Buf ++ ma1) (BUF_LEN FS),
    mwiBuf := lastN (st.mwiBuf ++ mwi) (BUF_LEN FS) }
  let st := if ma1.isEmpty then st
            else { st with
              signalMean := 0.99 * st.signalMean + 0.01 * meanQ ma1 }
  let r := (List.range mwi.length).foldl (detStep FS mwi.length) (st, acc.2)
  ({ r.1 with sampleCounter := r.1.sampleCounter + mwi.length }, r.2)

/-- Run the detector over a sequence of filtered batches, accumulating the
published events in order. -/
def processBatches (FS : ℚ) (acc : DetSt × List ECGEvent) :
    List (List ℚ × List ℚ) → DetSt × List ECGEvent
  | [] => acc
  | b :: bs => processBatches FS (processBatch FS acc b.1 b.2) bs

/-- The fallback-generator state (`last_fallback_peak_time`,
`_last_peak_dir`). -/
structure FbSt : Type where
  lastFallbackPeakTime : ℚ
  lastPeakDir : ℤ

/-- `_process_fallback`, with the wall clock passed in explicitly. -/
def processFallback (fallbackBpm : ℚ) (st : FbSt) (now : ℚ) :
    FbSt × List ECGEvent :=
  if 60 / fallbackBpm ≤ now - st.lastFallbackPeakTime then
    let dir := -st.lastPeakDir
    ({ lastFallbackPeakTime := now, lastPeakDir := dir },
      [.peak dir 800 fallbackBpm, .bpmUpdate fallbackBpm])
  else (st, [])

/-! ### ECG detector invariants -/

/-- The RR intervals (in seconds) between consecutive history peaks that
survive the strict `(0.4, 1.5)` filter, in order. -/
def keptRRs (FS : ℚ) (hist : List ℤ) : List ℚ :=
  ((hist.zip hist.tail).map (fun pq => ((pq.2 - pq.1 : ℤ) : ℚ) / FS)).filter
    (fun rr => decide (0.4 < rr ∧ rr < 1.5))

/-- The bpm payloads of the `ECG_BPM_UPDATE` events, in publication order. -/
def bpmValues (evs : List ECGEvent) : List ℚ :=
  evs.filterMap (fun e =>
    match e with
    | .bpmUpdate b => some b
    | _ => none)

/-- The bpm the detector publishes for the `j`-th kept RR interval:
`60 / mean` of the rolling window right after that interval was pushed. -/
def bpmTrace (ks : List ℚ) : List ℚ :=
  (List.range ks.length).map (fun j => 60 / meanQ (lastN (ks.take (j + 1)) 5))

/-- The event stream consists of `ECG_PEAK`-then-`ECG_BPM_UPDATE` pairs
with matching bpm payloads, whose `dir` fields alternate starting from the
negation of the initial direction; the final direction is recorded. -/
inductive PeakThenBpm : ℤ → List ECGEvent → ℤ → Prop
  | nil (d : ℤ) : PeakThenBpm d [] d
  | pair (d dEnd : ℤ) (v b : ℚ) (rest : List ECGEvent) :
      PeakThenBpm (-d) rest dEnd →
      PeakThenBpm d (.peak (-d) v b :: .bpmUpdate b :: rest) dEnd

theorem PeakThenBpm.append {d d' d'' : ℤ} {evs evs2 : List ECGEvent}
    (h1 : PeakThenBpm d evs d') (h2 : PeakThenBpm d' evs2 d'') :
    PeakThenBpm d (evs ++ evs2) d'' := by
  induction h1 with
  | nil => simpa using h2
  | pair d dEnd v b rest hrest ih =>
      simpa using PeakThenBpm.pair d d'' v b (rest ++ evs2) (ih h2)

/-- The joint invariant of the detector: the history is separated by more
than the refractory period, its last entry is the refractory anchor, the
rolling window holds the last five kept RR intervals, the published bpm
values are exactly the per-interval `60/mean(window)` values, and the event
stream is correctly paired and alternating. -/
def EcgInv (FS : ℚ) (st : DetSt) (evs : List ECGEvent) : Prop :=
  List.Chain' (fun p q => REFRACTORY FS < q - p) st.hist ∧
  (st.hist ≠ [] → st.hist.getLastD 0 = st.lastPeakAbsIdx) ∧
  st.rrHistory = lastN (keptRRs FS st.hist) 5 ∧
  bpmValues evs = bpmTrace (keptRRs FS st.hist) ∧
  PeakThenBpm 1 evs st.lastPeakDir

/-! ### Support lemmas for the invariant -/

theorem zip_tail_concat (h : List ℤ) (p : ℤ) (hne : h ≠ []) :
    (h ++ [p]).zip (h ++ [p]).tail
      = h.zip h.tail ++ [(h.getLastD 0, p)] := by
  induction h with
  | nil => exact absurd rfl hne
  | cons x t ih =>
      cases t with
      | nil => simp
      | cons y u =>
          have ih' := ih (by simp)
          simp only [List.cons_append, List.tail_cons, List.zip_cons_cons]
            at ih' ⊢
          rw [ih']
          simp [List.getLastD_cons]

theorem keptRRs_concat (FS : ℚ) (h : List ℤ) (p : ℤ) (hne : h ≠ []) :
    keptRRs FS (h ++ [p])
      = keptRRs FS h ++
          (if 0.4 < ((p - h.getLastD 0 : ℤ) : ℚ) / FS
              ∧ ((p - h.getLastD 0 : ℤ) : ℚ) / FS < 1.5 then
            [((p - h.getLastD 0 : ℤ) : ℚ) / FS]
          else []) := by
  rw [keptRRs, keptRRs, zip_tail_concat h p hne, List.map_append,
    List.filter_append]
  congr 1
  simp only [List.map_cons, List.map_nil, List.filter_cons, List.filter_nil,
    decide_eq_true_eq]

theorem dequePush5_lastN (K : List ℚ) (x : ℚ) :
    dequePush5 (lastN K 5) x = lastN (K ++ [x]) 5 := by
  by_cases hK : K.length < 5
  · have h1 : lastN K 5 = K := by
      rw [lastN, show K.length - 5 = 0 by omega, List.drop_zero]
    have h2 : (K ++ [x]).length - 5 = 0 := by simp; omega
    rw [h1, dequePush5, if_neg (by simp; omega), lastN, h2, List.drop_zero]
  · have hlen : (lastN K 5).length = 5 := by
      rw [lastN, List.length_drop]; omega
    have h3 : lastN K 5 ++ [x] = List.drop (K.length - 5) (K ++ [x]) := by
      rw [List.drop_append_eq_append_drop,
        show K.length - 5 - K.length = 0 by omega, List.drop_zero, lastN]
    rw [dequePush5, if_pos (by simp [hlen]), h3, List.tail_drop, lastN]
    congr 1
    simp
    omega

theorem bpmTrace_concat (ks : List ℚ) (x : ℚ) :
    bpmTrace (ks ++ [x])
      = bpmTrace ks ++ [60 / meanQ (lastN (ks ++ [x]) 5)] := by
  rw [bpmTrace, bpmTrace, show (ks ++ [x]).length = ks.length + 1 by simp,
    List.range_succ, List.map_append]
  congr 1
  · apply List.map_congr_left
    intro j hj
    rw [List.take_append_of_le_length
      (by rw [List.mem_range] at hj; omega)]
  · simp only [List.map_cons, List.map_nil]
    rw [List.take_of_length_le (by simp)]

theorem bpmValues_append (evs1 evs2 : List ECGEvent) :
    bpmValues (evs1 ++ evs2) = bpmValues evs1 ++ bpmValues evs2 :=
  List.filterMap_append evs1 evs2 _

theorem bpmValues_pair (d : ℤ) (v b : ℚ) :
    bpmValues [.peak d v b, .bpmUpdate b] = [b] := rfl

theorem thrUpdate_fields (FS : ℚ) (c : ℕ) (st : DetSt) :
    (thrUpdate FS c st).hist = st.hist ∧
    (thrUpdate FS c st).lastPeakAbsIdx = st.lastPeakAbsIdx ∧
    (thrUpdate FS c st).rrHistory = st.rrHistory ∧
    (thrUpdate FS c st).lastPeakDir = st.lastPeakDir := by
  simp only [thrUpdate]
  split_ifs <;> exact ⟨rfl, rfl, rfl, rfl⟩

theorem getLastD_eq_of_ne_nil (h : List ℤ) (hne : h ≠ []) :
    h.getLast? = some (h.getLastD 0) := by
  cases hh : h.getLast? with
  | none => exact absurd (List.getLast?_eq_none_iff.1 hh) hne
  | some a => rw [List.getLastD_eq_getLast?, hh]; rfl

theorem confirmPeak_inv (FS : ℚ) (p : ℤ) (v : ℚ) (st : DetSt)
    (evs : List ECGEvent) (href : REFRACTORY FS < p - st.lastPeakAbsIdx)
    (hinv : EcgInv FS st evs) :
    EcgInv FS (confirmPeak FS p v (st, evs)).1
      (confirmPeak FS p v (st, evs)).2 := by
  obtain ⟨hchain, hanchor, hrr, hbpm, hpair⟩ := hinv
  by_cases hne : st.hist = []
  · -- first confirmed peak: history becomes [p], nothing is published
    rw [confirmPeak, if_neg (by simp [hne])]
    refine ⟨?_, ?_, ?_, ?_, ?_⟩
    · simp [hne]
    · intro _; simp [hne]
    · simpa [hne, keptRRs] using hrr
    · simpa [hne, keptRRs] using hbpm
    · exact hpair
  · -- there is a previous peak
    have hlast := getLastD_eq_of_ne_nil st.hist hne
    have hchain' : List.Chain' (fun a b => REFRACTORY FS < b - a)
        (st.hist ++ [p]) := by
      rw [List.chain'_append]
      refine ⟨hchain, List.chain'_singleton p, ?_⟩
      intro a ha y hy
      rw [hlast, Option.mem_def, Option.some.injEq] at ha
      simp only [List.head?_cons, Option.mem_def, Option.some.injEq] at hy
      rw [← ha, ← hy, hanchor hne]
      exact href
    have hanchor' : (st.hist ++ [p]).getLastD 0 = p :=
      List.getLastD_concat _ _ _
    have hlen2 : 2 ≤ (st.hist ++ [p]).length := by
      have := List.length_pos.2 hne
      simp
      omega
    simp only [confirmPeak]
    rw [if_pos hlen2]
    by_cases hband : 0.4 < ((p - st.hist.getLastD 0 : ℤ) : ℚ) / FS ∧
        ((p - st.hist.getLastD 0 : ℤ) : ℚ) / FS < 1.5
    · rw [if_pos hband, EcgInv]
      refine ⟨hchain', fun _ => hanchor', ?_, ?_, ?_⟩
      · show dequePush5 st.rrHistory _ = _
        rw [hrr, dequePush5_lastN, keptRRs_concat FS st.hist p hne,
          if_pos hband]
      · show bpmValues (evs ++ _) = _
        rw [bpmValues_append, hbpm, bpmValues_pair,
          keptRRs_concat FS st.hist p hne, if_pos hband, bpmTrace_concat,
          hrr, dequePush5_lastN]
      · exact PeakThenBpm.append hpair
          (PeakThenBpm.pair st.lastPeakDir (-st.lastPeakDir) v _ []
            (PeakThenBpm.nil _))
    · rw [if_neg hband, EcgInv]
      refine ⟨hchain', fun _ => hanchor', ?_, ?_, hpair⟩
      · show st.rrHistory = _
        rw [hrr, keptRRs_concat FS st.hist p hne, if_neg hband,
          List.append_nil]
      · show bpmValues evs = _
        rw [hbpm, keptRRs_concat FS st.hist p hne, if_neg hband,
          List.append_nil]

theorem scanPeak_cases (FS : ℚ) (batchLen k currAbs : ℕ)
    (acc : DetSt × List ECGEvent) :
    scanPeak FS batchLen k currAbs acc = acc ∨
    ∃ p v, REFRACTORY FS < p - acc.1.lastPeakAbsIdx ∧
      scanPeak FS batchLen k currAbs acc = confirmPeak FS p v acc := by
  simp only [scanPeak]
  split_ifs
  all_goals first
    | (left; rfl)
    | (right; exact ⟨_, _, by assumption, rfl⟩)

theorem detStep_inv (FS : ℚ) (batchLen : ℕ) (acc : DetSt × List ECGEvent)
    (i : ℕ) (hinv : EcgInv FS acc.1 acc.2) :
    EcgInv FS (detStep FS batchLen acc i).1 (detStep FS batchLen acc i).2 := by
  simp only [detStep]
  split_ifs with h1 h2
  · exact hinv
  · exact hinv
  · obtain ⟨hh, hl, hr, hd⟩ :=
      thrUpdate_fields FS (acc.1.sampleCounter + i) acc.1
    have hinv' : EcgInv FS (thrUpdate FS (acc.1.sampleCounter + i) acc.1)
        acc.2 := by
      rw [EcgInv, hh, hl, hr, hd]
      exact hinv
    rcases scanPeak_cases FS batchLen (batchLen - i)
        (acc.1.sampleCounter + i)
        (thrUpdate FS (acc.1.sampleCounter + i) acc.1, acc.2)
      with hcase | ⟨p, v, href, hcase⟩
    · rw [hcase]
      exact hinv'
    · rw [hcase]
      exact confirmPeak_inv FS p v _ acc.2 href hinv'

theorem foldSteps_inv (FS : ℚ) (batchLen : ℕ) (l : List ℕ) :
    ∀ acc : DetSt × List ECGEvent, EcgInv FS acc.1 acc.2 →
      EcgInv FS (l.foldl (detStep FS batchLen) acc).1
        (l.foldl (detStep FS batchLen) acc).2 := by
  induction l with
  | nil => intro acc h; exact h
  | cons i is ih =>
      intro acc h
      simp only [List.foldl_cons]
      exact ih _ (detStep_inv FS batchLen acc i h)

theorem processBatch_inv (FS : ℚ) (acc : DetSt × List ECGEvent)
    (ma1 mwi : List ℚ) (hinv : EcgInv FS acc.1 acc.2) :
    EcgInv FS (processBatch FS acc ma1 mwi).1
      (processBatch FS acc ma1 mwi).2 := by
  simp only [processBatch]
  split_ifs with hma
  · exact foldSteps_inv FS mwi.length (List.range mwi.length) _ hinv
  · exact foldSteps_inv FS mwi.length (List.range mwi.length) _ hinv

theorem processBatches_inv (FS : ℚ) (batches : List (List ℚ × List ℚ)) :
    ∀ acc : DetSt × List ECGEvent, EcgInv FS acc.1 acc.2 →
      EcgInv FS (processBatches FS acc batches).1
        (processBatches FS acc batches).2 := by
  induction batches with
  | nil => intro acc h; exact h
  | cons b bs ih =>
      intro acc h
      rw [processBatches]
      exact ih _ (processBatch_inv FS acc b.1 b.2 h)

theorem detInit_inv (FS : ℚ) : EcgInv FS (detInit FS) [] := by
  refine ⟨?_, ?_, ?_, ?_, ?_⟩
  · simp [detInit]
  · intro h; simp [detInit] at h
  · simp [detInit, keptRRs, lastN]
  · simp [detInit, keptRRs, bpmValues, bpmTrace]
  · exact PeakThenBpm.nil 1

/-! ### Claims C3, C4, C5: detector-level theorems -/

/-- Claim C4: consecutive confirmed peaks are separated by more than the
refractory period `int(0.25 * FS)` samples, hence by at least `0.25 s` of
sample-index time. -/
theorem claim_C4_refractory (FS : ℚ) (batches : List (List ℚ × List ℚ))
    (hFS : 0 < FS) :
    List.Chain' (fun p q => REFRACTORY FS < q - p)
      (processBatches FS (detInit FS, []) batches).1.hist ∧
    List.Chain' (fun p q => 1 / 4 ≤ ((q - p : ℤ) : ℚ) / FS)
      (processBatches FS (detInit FS, []) batches).1.hist := by
  have hinv := processBatches_inv FS batches (detInit FS, []) (detInit_inv FS)
  rw [EcgInv] at hinv
  refine ⟨hinv.1, List.Chain'.imp ?_ hinv.1⟩
  intro p q h
  rw [le_div_iff₀ hFS]
  have h1 : (REFRACTORY FS : ℚ) + 1 ≤ ((q - p : ℤ) : ℚ) := by
    exact_mod_cast Int.add_one_le_iff.mpr h
  have h2 : FS / 4 < (REFRACTORY FS : ℚ) + 1 := by
    rw [REFRACTORY]
    exact Int.lt_floor_add_one (FS / 4)
  linarith

/-- Claim C3, amended: the published event stream always consists of
`ECG_PEAK`-then-`ECG_BPM_UPDATE` pairs with matching bpm payloads and
alternating `dir`, but a pair is published only for a confirmed peak after
the first whose RR interval lies strictly inside `(0.4 s, 1.5 s)` — not on
every confirmed peak; every fallback-generated peak does publish such a
pair. -/
theorem claim_C3_peak_pairs (FS : ℚ) (batches : List (List ℚ × List ℚ))
    (fallbackBpm now : ℚ) (fb : FbSt) :
    PeakThenBpm 1 (processBatches FS (detInit FS, []) batches).2
      (processBatches FS (detInit FS, []) batches).1.lastPeakDir ∧
    ((processFallback fallbackBpm fb now).2 = [] ∨
      (processFallback fallbackBpm fb now).2 =
        [.peak (-fb.lastPeakDir) 800 fallbackBpm, .bpmUpdate fallbackBpm]) := by
  constructor
  · have hinv :=
      processBatches_inv FS batches (detInit FS, []) (detInit_inv FS)
    rw [EcgInv] at hinv
    exact hinv.2.2.2.2
  · simp only [processFallback]
    split_ifs
    · right; rfl
    · left; rfl

/-- Claim C5, amended: the rolling window holds the last five RR intervals
that survived the strict open-interval filter `0.4 < rr < 1.5` (an interval
of exactly `0.4 s` or `1.5 s` is discarded, not kept), and every published
bpm equals `60 / mean(window)` at the time of publication. -/
theorem claim_C5_rr_window (FS : ℚ) (batches : List (List ℚ × List ℚ)) :
    (processBatches FS (detInit FS, []) batches).1.rrHistory
      = lastN (keptRRs FS (processBatches FS (detInit FS, []) batches).1.hist)
          5 ∧
    bpmValues (processBatches FS (detInit FS, []) batches).2
      = bpmTrace
          (keptRRs FS (processBatches FS (detInit FS, []) batches).1.hist) := by
  have hinv := processBatches_inv FS batches (detInit FS, []) (detInit_inv FS)
  rw [EcgInv] at hinv
  exact ⟨hinv.2.2.1, hinv.2.2.2.1⟩

/-! ### A concrete two-batch run of the detector at `FS = 10`

The batches are chosen so that two peaks are confirmed (at absolute sample
indices 2 and 6) whose RR interval is exactly `0.4 s`: the interval is
discarded by the strict filter and no event is ever published. -/

def ecgB1ma : List ℚ := [0, 0, 200, 0, 0, 0, 300]

def ecgB1mwi : List ℚ := [0, 0, 0, 100, 0, 0, 0]

def ecgB2ma : List ℚ := List.replicate 7 0

def ecgB2mwi : List ℚ := [100, 0, 0, 0, 0, 0, 0]

def ecgDemoBatches : List (List ℚ × List ℚ) :=
  [(ecgB1ma, ecgB1mwi), (ecgB2ma, ecgB2mwi)]

/-- The display-signal buffer after the first batch. -/
def ecgA1 : List ℚ := List.replicate 23 0 ++ ecgB1ma

/-- The detection-signal buffer after the first batch. -/
def ecgM1 : List ℚ := List.replicate 23 0 ++ ecgB1mwi

/-- The display-signal buffer after the second batch. -/
def ecgA2 : List ℚ := List.replicate 16 0 ++ ecgB1ma ++ ecgB2ma

/-- The detection-signal buffer after the second batch. -/
def ecgM2 : List ℚ := List.replicate 16 0 ++ ecgB1mwi ++ ecgB2mwi

theorem REFRACTORY_ten : REFRACTORY 10 = 2 := by
  rw [REFRACTORY]; norm_num

theorem BUF_LEN_ten : BUF_LEN 10 = 30 := by
  have h : ⌊(10 : ℚ) * 3⌋ = 30 := by norm_num
  simp [BUF_LEN, h]

theorem ecgBufA1 : lastN (List.replicate 30 (0 : ℚ) ++ ecgB1ma) 30 = ecgA1 :=
  rfl

theorem ecgBufM1 : lastN (List.replicate 30 (0 : ℚ) ++ ecgB1mwi) 30 = ecgM1 :=
  rfl

theorem ecgLen1 : ecgB1mwi.length = 7 := rfl

theorem ecgEmpA1 : ecgB1ma.isEmpty = false := rfl

theorem ecgMean1 : 0.99 * (120 : ℚ) + 0.01 * meanQ ecgB1ma = 4183 / 35 := by
  rw [meanQ]; norm_num [ecgB1ma]

theorem ecgStep10 :
    detStep 10 7
      (({ ma1Buf := ecgA1, mwiBuf := ecgM1, sampleCounter := 0,
          lastPeakAbsIdx := -2, hist := [], rrHistory := [],
          thresholdMwi := 50, signalMean := 4183 / 35,
          lastPeakDir := 1 } : DetSt), []) 0
    = (({ ma1Buf := ecgA1, mwiBuf := ecgM1, sampleCounter := 0,
          lastPeakAbsIdx := -2, hist := [], rrHistory := [],
          thresholdMwi := 40, signalMean := 4183 / 35,
          lastPeakDir := 1 } : DetSt), []) := by
  simp [detStep, thrUpdate, scanPeak, getEnd, lastN, ecgM1, ecgA1, ecgB1ma,
    ecgB1mwi, maxList, List.foldl, max_def, List.replicate, REFRACTORY,
    SEARCH_WIN]
  norm_num

theorem ecgStep11 :
    detStep 10 7
      (({ ma1Buf := ecgA1, mwiBuf := ecgM1, sampleCounter := 0,
          lastPeakAbsIdx := -2, hist := [], rrHistory := [],
          thresholdMwi := 40, signalMean := 4183 / 35,
          lastPeakDir := 1 } : DetSt), []) 1
    = (({ ma1Buf := ecgA1, mwiBuf := ecgM1, sampleCounter := 0,
          lastPeakAbsIdx := -2, hist := [], rrHistory := [],
          thresholdMwi := 40, signalMean := 4183 / 35,
          lastPeakDir := 1 } : DetSt), []) := by
  simp [detStep, thrUpdate, scanPeak, getEnd, lastN, ecgM1, ecgA1, ecgB1ma,
    ecgB1mwi, maxList, List.foldl, max_def, List.replicate, REFRACTORY,
    SEARCH_WIN]

theorem ecgStep12 :
    detStep 10 7
      (({ ma1Buf := ecgA1, mwiBuf := ecgM1, sampleCounter := 0,
          lastPeakAbsIdx := -2, hist := [], rrHistory := [],
          thresholdMwi := 40, signalMean := 4183 / 35,
          lastPeakDir := 1 } : DetSt), []) 2
    = (({ ma1Buf := ecgA1, mwiBuf := ecgM1, sampleCounter := 0,
          lastPeakAbsIdx := -2, hist := [], rrHistory := [],
          thresholdMwi := 40, signalMean := 4183 / 35,
          lastPeakDir := 1 } : DetSt), []) := by
  simp [detStep, thrUpdate, scanPeak, getEnd, lastN, ecgM1, ecgA1, ecgB1ma,
    ecgB1mwi, maxList, List.foldl, max_def, List.replicate, REFRACTORY,
    SEARCH_WIN]

theorem ecgStep13 :
    detStep 10 7
      (({ ma1Buf := ecgA1, mwiBuf := ecgM1, sampleCounter := 0,
          lastPeakAbsIdx := -2, hist := [], rrHistory := [],
          thresholdMwi := 40, signalMean := 4183 / 35,
          lastPeakDir := 1 } : DetSt), []) 3
    = (({ ma1Buf := ecgA1, mwiBuf := ecgM1, sampleCounter := 0,
          lastPeakAbsIdx := -2, hist := [], rrHistory := [],
          thresholdMwi := 40, signalMean := 4183 / 35,
          lastPeakDir := 1 } : DetSt), []) := by
  simp [detStep, thrUpdate, scanPeak, getEnd, lastN, ecgM1, ecgA1, ecgB1ma,
    ecgB1mwi, maxList, List.foldl, max_def, List.replicate, REFRACTORY,
    SEARCH_WIN]

theorem ecgStep14 :
    detStep 10 7
      (({ ma1Buf := ecgA1, mwiBuf := ecgM1, sampleCounter := 0,
          lastPeakAbsIdx := -2, hist := [], rrHistory := [],
          thresholdMwi := 40, signalMean := 4183 / 35,
          lastPeakDir := 1 } : DetSt), []) 4
    = (({ ma1Buf := ecgA1, mwiBuf := ecgM1, sampleCounter := 0,
          lastPeakAbsIdx := 2, hist := [2], rrHistory := [],
          thresholdMwi := 40, signalMean := 4183 / 35,
          lastPeakDir := 1 } : DetSt), []) := by
  simp [detStep, thrUpdate, scanPeak, confirmPeak, getEnd, lastN, ecgM1,
    ecgA1, ecgB1ma, ecgB1mwi, maxList, argmaxList, List.foldl, max_def,
    List.replicate, REFRACTORY, SEARCH_WIN, List.indexOf_cons, dequePush5]
  norm_num

theorem ecgStep15 :
    detStep 10 7
      (({ ma1Buf := ecgA1, mwiBuf := ecgM1, sampleCounter := 0,
          lastPeakAbsIdx := 2, hist := [2], rrHistory := [],
          thresholdMwi := 40, signalMean := 4183 / 35,
          lastPeakDir := 1 } : DetSt), []) 5
    = (({ ma1Buf := ecgA1, mwiBuf := ecgM1, sampleCounter := 0,
          lastPeakAbsIdx := 2, hist := [2], rrHistory := [],
          thresholdMwi := 40, signalMean := 4183 / 35,
          lastPeakDir := 1 } : DetSt), []) := rfl

theorem ecgStep16 :
    detStep 10 7
      (({ ma1Buf := ecgA1, mwiBuf := ecgM1, sampleCounter := 0,
          lastPeakAbsIdx := 2, hist := [2], rrHistory := [],
          thresholdMwi := 40, signalMean := 4183 / 35,
          lastPeakDir := 1 } : DetSt), []) 6
    = (({ ma1Buf := ecgA1, mwiBuf := ecgM1, sampleCounter := 0,
          lastPeakAbsIdx := 2, hist := [2], rrHistory := [],
          thresholdMwi := 40, signalMean := 4183 / 35,
          lastPeakDir := 1 } : DetSt), []) := rfl

theorem ecgFold1 :
    List.foldl (detStep 10 7)
      (({ ma1Buf := ecgA1, mwiBuf := ecgM1, sampleCounter := 0,
          lastPeakAbsIdx := -2, hist := [], rrHistory := [],
          thresholdMwi := 50, signalMean := 4183 / 35,
          lastPeakDir := 1 } : DetSt), [])
      (List.range 7)
    = (({ ma1Buf := ecgA1, mwiBuf := ecgM1, sampleCounter := 0,
          lastPeakAbsIdx := 2, hist := [2], rrHistory := [],
          thresholdMwi := 40, signalMean := 4183 / 35,
          lastPeakDir := 1 } : DetSt), []) := by
  rw [show List.range 7 = [0, 1, 2, 3, 4, 5, 6] from rfl]
  simp only [List.foldl_cons, List.foldl_nil, ecgStep10, ecgStep11,
    ecgStep12, ecgStep13, ecgStep14, ecgStep15, ecgStep16]

theorem ecgBatch1 :
    processBatch 10 (detInit 10, []) ecgB1ma ecgB1mwi
    = (({ ma1Buf := ecgA1, mwiBuf := ecgM1, sampleCounter := 7,
          lastPeakAbsIdx := 2, hist := [2], rrHistory := [],
          thresholdMwi := 40, signalMean := 4183 / 35,
          lastPeakDir := 1 } : DetSt), []) := by
  simp only [processBatch, detInit, BUF_LEN_ten, REFRACTORY_ten, ecgBufA1,
    ecgBufM1, ecgLen1, ecgEmpA1, ecgMean1, Bool.false_eq_true, if_false,
    ecgFold1]

theorem ecgBufA2 : lastN (ecgA1 ++ ecgB2ma) 30 = ecgA2 := rfl

theorem ecgBufM2 : lastN (ecgM1 ++ ecgB2mwi) 30 = ecgM2 := rfl

theorem ecgLen2 : ecgB2mwi.length = 7 := rfl

theorem ecgEmpA2 : ecgB2ma.isEmpty = false := rfl

theorem ecgMean2 :
    0.99 * (4183 / 35 : ℚ) + 0.01 * meanQ ecgB2ma = 414117 / 3500 := by
  rw [meanQ]
  norm_num [ecgB2ma, List.sum_replicate, List.length_replicate]

theorem ecgStep20 :
    detStep 10 7
      (({ ma1Buf := ecgA2, mwiBuf := ecgM2, sampleCounter := 7,
          lastPeakAbsIdx := 2, hist := [2], rrHistory := [],
          thresholdMwi := 40, signalMean := 414117 / 3500,
          lastPeakDir := 1 } : DetSt), []) 0
    = (({ ma1Buf := ecgA2, mwiBuf := ecgM2, sampleCounter := 7,
          lastPeakAbsIdx := 2, hist := [2], rrHistory := [],
          thresholdMwi := 40, signalMean := 414117 / 3500,
          lastPeakDir := 1 } : DetSt), []) := by
  simp [detStep, thrUpdate, scanPeak, getEnd, lastN, ecgM2, ecgA2, ecgB1ma,
    ecgB1mwi, ecgB2ma, ecgB2mwi, maxList, List.foldl, max_def,
    List.replicate, REFRACTORY, SEARCH_WIN]

theorem ecgStep21 :
    detStep 10 7
      (({ ma1Buf := ecgA2, mwiBuf := ecgM2, sampleCounter := 7,
          lastPeakAbsIdx := 2, hist := [2], rrHistory := [],
          thresholdMwi := 40, signalMean := 414117 / 3500,
          lastPeakDir := 1 } : DetSt), []) 1
    = (({ ma1Buf := ecgA2, mwiBuf := ecgM2, sampleCounter := 7,
          lastPeakAbsIdx := 6, hist := [2, 6], rrHistory := [],
          thresholdMwi := 40, signalMean := 414117 / 3500,
          lastPeakDir := 1 } : DetSt), []) := by
  simp [detStep, thrUpdate, scanPeak, confirmPeak, getEnd, lastN, ecgM2,
    ecgA2, ecgB1ma, ecgB1mwi, ecgB2ma, ecgB2mwi, maxList, argmaxList,
    List.foldl, max_def, List.replicate, REFRACTORY, SEARCH_WIN,
    List.indexOf_cons, dequePush5]
  norm_num

theorem ecgStep22 :
    detStep 10 7
      (({ ma1Buf := ecgA2, mwiBuf := ecgM2, sampleCounter := 7,
          lastPeakAbsIdx := 6, hist := [2, 6], rrHistory := [],
          thresholdMwi := 40, signalMean := 414117 / 3500,
          lastPeakDir := 1 } : DetSt), []) 2
    = (({ ma1Buf := ecgA2, mwiBuf := ecgM2, sampleCounter := 7,
          lastPeakAbsIdx := 6, hist := [2, 6], rrHistory := [],
          thresholdMwi := 40, signalMean := 414117 / 3500,
          lastPeakDir := 1 } : DetSt), []) := by
  simp [detStep, thrUpdate, scanPeak, getEnd, lastN, ecgM2, ecgA2, ecgB1ma,
    ecgB1mwi, ecgB2ma, ecgB2mwi, maxList, List.foldl, max_def,
    List.replicate, REFRACTORY, SEARCH_WIN]

theorem ecgStep23 :
    detStep 10 7
      (({ ma1Buf := ecgA2, mwiBuf := ecgM2, sampleCounter := 7,
          lastPeakAbsIdx := 6, hist := [2, 6], rrHistory := [],
          thresholdMwi := 40, signalMean := 414117 / 3500,
          lastPeakDir := 1 } : DetSt), []) 3
    = (({ ma1Buf := ecgA2, mwiBuf := ecgM2, sampleCounter := 7,
          lastPeakAbsIdx := 6, hist := [2, 6], rrHistory := [],
          thresholdMwi := 40, signalMean := 414117 / 3500,
          lastPeakDir := 1 } : DetSt), []) := by
  simp [detStep, thrUpdate, scanPeak, getEnd, lastN, ecgM2, ecgA2, ecgB1ma,
    ecgB1mwi, ecgB2ma, ecgB2mwi, maxList, List.foldl, max_def,
    List.replicate, REFRACTORY, SEARCH_WIN]

theorem ecgStep24 :
    detStep 10 7
      (({ ma1Buf := ecgA2, mwiBuf := ecgM2, sampleCounter := 7,
          lastPeakAbsIdx := 6, hist := [2, 6], rrHistory := [],
          thresholdMwi := 40, signalMean := 414117 / 3500,
          lastPeakDir := 1 } : DetSt), []) 4
    = (({ ma1Buf := ecgA2, mwiBuf := ecgM2, sampleCounter := 7,
          lastPeakAbsIdx := 6, hist := [2, 6], rrHistory := [],
          thresholdMwi := 40, signalMean := 414117 / 3500,
          lastPeakDir := 1 } : DetSt), []) := by
  simp [detStep, thrUpdate, scanPeak, getEnd, lastN, ecgM2, ecgA2, ecgB1ma,
    ecgB1mwi, ecgB2ma, ecgB2mwi, maxList, List.foldl, max_def,
    List.replicate, REFRACTORY, SEARCH_WIN]

theorem ecgStep25 :
    detStep 10 7
      (({ ma1Buf := ecgA2, mwiBuf := ecgM2, sampleCounter := 7,
          lastPeakAbsIdx := 6, hist := [2, 6], rrHistory := [],
          thresholdMwi := 40, signalMean := 414117 / 3500,
          lastPeakDir := 1 } : DetSt), []) 5
    = (({ ma1Buf := ecgA2, mwiBuf := ecgM2, sampleCounter := 7,
          lastPeakAbsIdx := 6, hist := [2, 6], rrHistory := [],
          thresholdMwi := 40, signalMean := 414117 / 3500,
          lastPeakDir := 1 } : DetSt), []) := rfl

theorem ecgStep26 :
    detStep 10 7
      (({ ma1Buf := ecgA2, mwiBuf := ecgM2, sampleCounter := 7,
          lastPeakAbsIdx := 6, hist := [2, 6], rrHistory := [],
          thresholdMwi := 40, signalMean := 414117 / 3500,
          lastPeakDir := 1 } : DetSt), []) 6
    = (({ ma1Buf := ecgA2, mwiBuf := ecgM2, sampleCounter := 7,
          lastPeakAbsIdx := 6, hist := [2, 6], rrHistory := [],
          thresholdMwi := 40, signalMean := 414117 / 3500,
          lastPeakDir := 1 } : DetSt), []) := rfl

theorem ecgFold2 :
    List.foldl (detStep 10 7)
      (({ ma1Buf := ecgA2, mwiBuf := ecgM2, sampleCounter := 7,
          lastPeakAbsIdx := 2, hist := [2], rrHistory := [],
          thresholdMwi := 40, signalMean := 414117 / 3500,
          lastPeakDir := 1 } : DetSt), [])
      (List.range 7)
    = (({ ma1Buf := ecgA2, mwiBuf := ecgM2, sampleCounter := 7,
          lastPeakAbsIdx := 6, hist := [2, 6], rrHistory := [],
          thresholdMwi := 40, signalMean := 414117 / 3500,
          lastPeakDir := 1 } : DetSt), []) := by
  rw [show List.range 7 = [0, 1, 2, 3, 4, 5, 6] from rfl]
  simp only [List.foldl_cons, List.foldl_nil, ecgStep20, ecgStep21,
    ecgStep22, ecgStep23, ecgStep24, ecgStep25, ecgStep26]

theorem ecgBatch2 :
    processBatch 10
      (({ ma1Buf := ecgA1, mwiBuf := ecgM1, sampleCounter := 7,
          lastPeakAbsIdx := 2, hist := [2], rrHistory := [],
          thresholdMwi := 40, signalMean := 4183 / 35,
          lastPeakDir := 1 } : DetSt), []) ecgB2ma ecgB2mwi
    = (({ ma1Buf := ecgA2, mwiBuf := ecgM2, sampleCounter := 14,
          lastPeakAbsIdx := 6, hist := [2, 6], rrHistory := [],
          thresholdMwi := 40, signalMean := 414117 / 3500,
          lastPeakDir := 1 } : DetSt), []) := by
  simp only [processBatch, BUF_LEN_ten, ecgBufA2, ecgBufM2, ecgLen2,
    ecgEmpA2, ecgMean2, Bool.false_eq_true, if_false, ecgFold2]

/-- The full two-batch run: two confirmed peaks at absolute indices 2 and 6,
an empty rolling RR window, and no published events. -/
theorem ecgDemo_run :
    processBatches 10 (detInit 10, []) ecgDemoBatches
    = (({ ma1Buf := ecgA2, mwiBuf := ecgM2, sampleCounter := 14,
          lastPeakAbsIdx := 6, hist := [2, 6], rrHistory := [],
          thresholdMwi := 40, signalMean := 414117 / 3500,
          lastPeakDir := 1 } : DetSt), []) := by
  rw [show ecgDemoBatches = [(ecgB1ma, ecgB1mwi), (ecgB2ma, ecgB2mwi)]
    from rfl]
  simp only [processBatches]
  rw [ecgBatch1, ecgBatch2]

theorem claim_C4_refractory_witness :
    List.Chain' (fun p q => REFRACTORY 10 < q - p)
      (processBatches 10 (detInit 10, []) ecgDemoBatches).1.hist ∧
    List.Chain' (fun p q => 1 / 4 ≤ ((q - p : ℤ) : ℚ) / 10)
      (processBatches 10 (detInit 10, []) ecgDemoBatches).1.hist :=
  claim_C4_refractory 10 ecgDemoBatches (by decide)

theorem claim_C3_counterexample :
    (processBatches 10 (detInit 10, []) ecgDemoBatches).1.hist.length = 2 ∧
    (processBatches 10 (detInit 10, []) ecgDemoBatches).2 = [] := by
  rw [ecgDemo_run]
  exact ⟨rfl, rfl⟩

theorem claim_C5_counterexample :
    (processBatches 10 (detInit 10, []) ecgDemoBatches).1.hist = [2, 6] ∧
    (0.4 : ℚ) ≤ ((6 - 2 : ℤ) : ℚ) / 10 ∧ ((6 - 2 : ℤ) : ℚ) / 10 ≤ 1.5 ∧
    (processBatches 10 (detInit 10, []) ecgDemoBatches).1.rrHistory = [] ∧
    bpmValues (processBatches 10 (detInit 10, []) ecgDemoBatches).2 = [] := by
  rw [ecgDemo_run]
  exact ⟨rfl, by norm_num, by norm_num, rfl, rfl⟩


end BioVoice
